import Mathlib

/-!
# Neo-Geo driver (`hbmame/drivers/neogeo.cpp`): interrupt, NMI and save-RAM logic

A shallow embedding of the driver-level state of `neogeo_state` and of the member
functions that manipulate it.  Machine integers are natural numbers reduced
modulo `2 ^ w` where the C++ type has width `w`.

The emulation framework (CPU cores, scheduler, memory banks, latches) is not part
of the driver.  Calls into it that have no return value are recorded, in program
order, in the `calls` field of the state; the devices whose contents the driver
reads back (sound latch, memory-bank entries) are kept as plain fields.
`logerror`, `printf`, timer allocation and save-state registration neither
change driver state nor drive a device and are left out.
-/

/-- Level driven onto a CPU input line (`CLEAR_LINE` / `ASSERT_LINE`). -/
inductive line_state
  | CLEAR_LINE
  | ASSERT_LINE
  deriving DecidableEq, Repr

/-- Hardware variant stored in `m_type` (enumeration of `includes/neogeo.h`). -/
inductive neogeo_type
  | NEOGEO_MVS
  | NEOGEO_AES
  | NEOGEO_CD
  deriving DecidableEq, Repr

/-- Clock constants of `includes/neogeo.h`, kept symbolic: only the clock a tick
count refers to matters for the driver logic. -/
inductive neogeo_clock
  | NEOGEO_MASTER_CLOCK
  | NEOGEO_PIXEL_CLOCK
  deriving DecidableEq, Repr

/-- Screen row constants of `includes/neogeo.h`, kept symbolic. -/
inductive neogeo_vpos
  | NEOGEO_VBSTART
  deriving DecidableEq, Repr

/-- Time values handed to the scheduler, as the expressions the driver builds. -/
inductive attotime
  | from_ticks (ticks : Nat) (clock : neogeo_clock)
  | time_until_pos (vpos : neogeo_vpos)
  | NEOGEO_VBLANK_IRQ_HTIM
  | add (a b : attotime)
  deriving DecidableEq, Repr

/-- The display counter is reloaded 1146 mclks from the rising edge of /HSYNC. -/
def NEOGEO_VBLANK_RELOAD_HTIM : attotime :=
  attotime.from_ticks 1146 neogeo_clock.NEOGEO_MASTER_CLOCK

/-- Modelled from the spec: the row number of `NEOGEO_VBSTART`, which is declared
in the absent `includes/neogeo.h`; the driver's note on the reload of the display
counter places it on scanline 224. -/
def neogeo_vpos.scanline (v : neogeo_vpos) : Nat :=
  match v with
  | neogeo_vpos.NEOGEO_VBSTART => 224

/-- Screen position a timer is scheduled at when its time has the form
`time_until_pos(row) + from_ticks(n, NEOGEO_MASTER_CLOCK)`: the scanline and the
number of master-clock ticks after its start. -/
def attotime.scheduled_position (t : attotime) : Option (Nat × Nat) :=
  match t with
  | attotime.add (attotime.time_until_pos v)
      (attotime.from_ticks n neogeo_clock.NEOGEO_MASTER_CLOCK) => some (v.scanline, n)
  | _ => none

def IRQ2CTRL_ENABLE : Nat := 0x10
def IRQ2CTRL_LOAD_RELATIVE : Nat := 0x20
def IRQ2CTRL_AUTOLOAD_VBLANK : Nat := 0x40
def IRQ2CTRL_AUTOLOAD_REPEAT : Nat := 0x80

/-- The three timers created by `create_interrupt_timers`. -/
inductive neogeo_timer
  | m_display_position_interrupt_timer
  | m_display_position_vblank_timer
  | m_vblank_interrupt_timer
  deriving DecidableEq, Repr

/-- Input pins of the uPD4990A real-time clock written by the driver. -/
inductive upd4990a_pin
  | cs | oe | c0 | c1 | c2 | data_in | clk | stb
  deriving DecidableEq, Repr

/-- ROM regions a memory-bank entry of the audio CPU can point into. -/
inductive audio_region
  | audiocpu
  | audiobios
  deriving DecidableEq, Repr

/-- Calls the driver makes into devices it does not own. -/
inductive device_call
  | maincpu_set_input_line (line : Nat) (state : line_state)
  | audiocpu_set_input_line_nmi (state : line_state)
  | timer_adjust (timer : neogeo_timer) (period : attotime)
  | maincpu_reset
  | boost_interleave
  | banked_cart_init_banks
  | upd4990a_w (pin : upd4990a_pin) (value : Nat)
  | neogeo_set_screen_shadow (bit : Nat)
  | neogeo_set_palette_bank (bit : Nat)
  | neogeo_set_fixed_layer_source (bit : Nat)
  | set_digit_value (digit : Nat) (value : Option Nat)
  | space_read_word (address : Nat)
  deriving DecidableEq, Repr

/-- Driver state of `neogeo_state`, together with the devices it reads back and
the record of calls made into the framework. -/
structure neogeo_state where
  m_type : neogeo_type
  m_display_position_interrupt_control : Nat
  m_display_counter : Nat
  m_vblank_interrupt_pending : Nat
  m_display_position_interrupt_pending : Nat
  m_irq3_pending : Nat
  m_vblank_level : Nat
  m_raster_level : Nat
  m_audio_cpu_nmi_enabled : Bool
  m_audio_cpu_nmi_pending : Bool
  m_save_ram_unlocked : Nat
  m_save_ram : List Nat
  m_output_data : Nat
  m_output_latch : Nat
  m_el_value : Nat
  m_led1_value : Nat
  m_led2_value : Nat
  m_use_cart_vectors : Nat
  m_use_cart_audio : Nat
  m_recurse : Bool
  m_soundlatch : Nat
  m_bank_audio_main_entry : Nat
  m_bank_audio_main_config : Nat → Option audio_region
  m_bank_audio_cart_entry : Nat → Nat
  m_bank_audio_cart_config : Nat → Nat → Option Nat
  calls : List device_call

namespace neogeo_state

/-- Record a call into the framework after all earlier ones. -/
def emit (c : device_call) (s : neogeo_state) : neogeo_state :=
  { s with calls := s.calls ++ [c] }

/-- Level of main-CPU input line `n` after the recorded calls: the argument of
the most recent `set_input_line` on that line, if there was one. -/
def maincpu_line (n : Nat) (s : neogeo_state) : Option line_state :=
  s.calls.reverse.findSome? fun c =>
    match c with
    | device_call.maincpu_set_input_line l v => if l = n then some v else none
    | _ => none

/-- Level of the audio-CPU NMI line after the recorded calls. -/
def audiocpu_nmi_line (s : neogeo_state) : Option line_state :=
  s.calls.reverse.findSome? fun c =>
    match c with
    | device_call.audiocpu_set_input_line_nmi v => some v
    | _ => none

/-! ## Main CPU interrupt generation -/

/-- `attotime::from_ticks((uint64_t)m_display_counter + 1, NEOGEO_PIXEL_CLOCK)`:
the tick count of the period, computed in 64 bits. -/
def display_position_period_ticks (s : neogeo_state) : Nat :=
  (s.m_display_counter % 2 ^ 32 + 1) % 2 ^ 64

def adjust_display_position_interrupt_timer (s : neogeo_state) : neogeo_state :=
  let period := attotime.from_ticks (display_position_period_ticks s)
    neogeo_clock.NEOGEO_PIXEL_CLOCK
  emit (device_call.timer_adjust neogeo_timer.m_display_position_interrupt_timer period) s

/-- The argument is a `uint16_t`; the width of the member it is stored in is
declared in the absent header, and every bit the driver tests lies in the low
byte. -/
def neogeo_set_display_position_interrupt_control (data : Nat) (s : neogeo_state) :
    neogeo_state :=
  { s with m_display_position_interrupt_control := data % 2 ^ 16 }

def neogeo_set_display_counter_msb (data : Nat) (s : neogeo_state) : neogeo_state :=
  { s with m_display_counter :=
      ((s.m_display_counter &&& 0x0000ffff) ||| (((data % 2 ^ 16) <<< 16) % 2 ^ 32)) % 2 ^ 32 }

def neogeo_set_display_counter_lsb (data : Nat) (s : neogeo_state) : neogeo_state :=
  let s1 := { s with m_display_counter :=
      ((s.m_display_counter &&& 0xffff0000) ||| (data % 2 ^ 16)) % 2 ^ 32 }
  if s1.m_display_position_interrupt_control &&& IRQ2CTRL_LOAD_RELATIVE ≠ 0 then
    adjust_display_position_interrupt_timer s1
  else s1

/-- Line level for a pending flag: `flag ? ASSERT_LINE : CLEAR_LINE`. -/
def line_of (flag : Nat) : line_state :=
  if flag ≠ 0 then line_state.ASSERT_LINE else line_state.CLEAR_LINE

def update_interrupts (s : neogeo_state) : neogeo_state :=
  let s := emit (device_call.maincpu_set_input_line 3 (line_of s.m_irq3_pending)) s
  let s := emit (device_call.maincpu_set_input_line s.m_raster_level
    (line_of s.m_display_position_interrupt_pending)) s
  emit (device_call.maincpu_set_input_line s.m_vblank_level
    (line_of s.m_vblank_interrupt_pending)) s

def neogeo_acknowledge_interrupt (data : Nat) (s : neogeo_state) : neogeo_state :=
  let data := data % 2 ^ 16
  let s := if data &&& 0x01 ≠ 0 then { s with m_irq3_pending := 0 } else s
  let s := if data &&& 0x02 ≠ 0 then { s with m_display_position_interrupt_pending := 0 } else s
  let s := if data &&& 0x04 ≠ 0 then { s with m_vblank_interrupt_pending := 0 } else s
  update_interrupts s

def display_position_interrupt_callback (s : neogeo_state) : neogeo_state :=
  let s :=
    if s.m_display_position_interrupt_control &&& IRQ2CTRL_ENABLE ≠ 0 then
      update_interrupts { s with m_display_position_interrupt_pending := 1 }
    else s
  if s.m_display_position_interrupt_control &&& IRQ2CTRL_AUTOLOAD_REPEAT ≠ 0 then
    adjust_display_position_interrupt_timer s
  else s

def display_position_vblank_callback (s : neogeo_state) : neogeo_state :=
  let s :=
    if s.m_display_position_interrupt_control &&& IRQ2CTRL_AUTOLOAD_VBLANK ≠ 0 then
      adjust_display_position_interrupt_timer s
    else s
  emit (device_call.timer_adjust neogeo_timer.m_display_position_vblank_timer
    (attotime.add (attotime.time_until_pos neogeo_vpos.NEOGEO_VBSTART)
      NEOGEO_VBLANK_RELOAD_HTIM)) s

def vblank_interrupt_callback (s : neogeo_state) : neogeo_state :=
  let s := update_interrupts { s with m_vblank_interrupt_pending := 1 }
  emit (device_call.timer_adjust neogeo_timer.m_vblank_interrupt_timer
    (attotime.add (attotime.time_until_pos neogeo_vpos.NEOGEO_VBSTART)
      attotime.NEOGEO_VBLANK_IRQ_HTIM)) s

def start_interrupt_timers (s : neogeo_state) : neogeo_state :=
  let s := emit (device_call.timer_adjust neogeo_timer.m_vblank_interrupt_timer
    (attotime.add (attotime.time_until_pos neogeo_vpos.NEOGEO_VBSTART)
      attotime.NEOGEO_VBLANK_IRQ_HTIM)) s
  emit (device_call.timer_adjust neogeo_timer.m_display_position_vblank_timer
    (attotime.add (attotime.time_until_pos neogeo_vpos.NEOGEO_VBSTART)
      NEOGEO_VBLANK_RELOAD_HTIM)) s

/-! ## Audio CPU interrupt generation -/

def audio_cpu_check_nmi (s : neogeo_state) : neogeo_state :=
  emit (device_call.audiocpu_set_input_line_nmi
    (if s.m_audio_cpu_nmi_enabled && s.m_audio_cpu_nmi_pending
      then line_state.ASSERT_LINE else line_state.CLEAR_LINE)) s

/-- The data byte of the port write is not used: out ($08) enables the nmi,
out ($18) disables it. -/
def audio_cpu_enable_nmi_w (offset _data : Nat) (s : neogeo_state) : neogeo_state :=
  audio_cpu_check_nmi { s with m_audio_cpu_nmi_enabled := (offset &&& 0x10 == 0) }

/-! ## NVRAM (save RAM) -/

def set_save_ram_unlock (data : Nat) (s : neogeo_state) : neogeo_state :=
  { s with m_save_ram_unlocked := data % 2 ^ 8 }

/-- `COMBINE_DATA` of the framework on a 16-bit word:
`(old & ~mem_mask) | (data & mem_mask)`. -/
def COMBINE_DATA (old data mem_mask : Nat) : Nat :=
  ((old &&& (0xffff ^^^ (mem_mask % 2 ^ 16))) ||| ((data % 2 ^ 16) &&& (mem_mask % 2 ^ 16)))
    % 2 ^ 16

def save_ram_w (offset data mem_mask : Nat) (s : neogeo_state) : neogeo_state :=
  if s.m_save_ram_unlocked ≠ 0 then
    { s with m_save_ram :=
        s.m_save_ram.modify (fun old => COMBINE_DATA old data mem_mask) offset }
  else s

/-! ## Inter-CPU communications -/

def audio_command_w (data : Nat) (s : neogeo_state) : neogeo_state :=
  let s := { s with m_soundlatch := data % 2 ^ 8 }
  let s := audio_cpu_check_nmi { s with m_audio_cpu_nmi_pending := true }
  emit device_call.boost_interleave s

def audio_command_r (s : neogeo_state) : Nat × neogeo_state :=
  let ret := s.m_soundlatch
  (ret, audio_cpu_check_nmi { s with m_audio_cpu_nmi_pending := false })

/-! ## Banking -/

def neogeo_main_cpu_banking_init (s : neogeo_state) : neogeo_state :=
  let s := { s with m_use_cart_vectors := 0 }
  if s.m_type ≠ neogeo_type.NEOGEO_CD then emit device_call.banked_cart_init_banks s else s

/-- `(memregion("audiocpu")->bytes() - 0x10000 - 1) & 0x3ffff` in 32-bit
unsigned arithmetic. -/
def address_mask (audiocpu_bytes : Nat) : Nat :=
  ((audiocpu_bytes % 2 ^ 32 + 2 ^ 32 - 0x10000 - 1) % 2 ^ 32) &&& 0x3ffff

/-- `0x10000 + ((bank << (11 + region)) & address_mask)`. -/
def bank_address (audiocpu_bytes region bank : Nat) : Nat :=
  (0x10000 + ((bank <<< (11 + region)) &&& address_mask audiocpu_bytes)) % 2 ^ 32

/-- `m_bank_audio_cart[region]->configure_entry(bank, &rgn[bank_address])`. -/
def configure_cart_entry (audiocpu_bytes region bank : Nat) (s : neogeo_state) :
    neogeo_state :=
  { s with m_bank_audio_cart_config := fun r b =>
      if r = region ∧ b = bank then some (bank_address audiocpu_bytes region bank)
      else s.m_bank_audio_cart_config r b }

/-- `m_bank_audio_cart[region]->set_entry(entry)`. -/
def set_cart_entry (region entry : Nat) (s : neogeo_state) : neogeo_state :=
  { s with m_bank_audio_cart_entry := fun r =>
      if r = region then entry else s.m_bank_audio_cart_entry r }

/-- Banks are visited from `0xff` down to `0`. -/
def bank_order : List Nat := (List.range 0x100).reverse

/-- `audiocpu_bytes` is `memregion("audiocpu")->bytes()` and `has_audiobios`
tells whether `memregion("audiobios")` exists; the argument `set_entry` is
not used by the body. -/
def neogeo_audio_cpu_banking_init (audiocpu_bytes : Nat) (has_audiobios : Bool)
    (_set_entry : Int) (s : neogeo_state) : neogeo_state :=
  if s.m_type = neogeo_type.NEOGEO_CD then s else
  let s := { s with m_bank_audio_main_config := fun e =>
      if e = 1 then some audio_region.audiocpu else s.m_bank_audio_main_config e }
  let s := { s with m_bank_audio_main_config := fun e =>
      if e = 0 then some (if has_audiobios then audio_region.audiobios else audio_region.audiocpu)
      else s.m_bank_audio_main_config e }
  let s := { s with m_bank_audio_main_entry := s.m_use_cart_audio }
  let s := (List.range 4).foldl (fun s region =>
      bank_order.foldl (fun s bank => configure_cart_entry audiocpu_bytes region bank s) s) s
  let s := set_cart_entry 0 0x1e s
  let s := set_cart_entry 1 0x0e s
  let s := set_cart_entry 2 0x06 s
  set_cart_entry 3 0x02 s

/-- The port offset is 16 bits wide. -/
def audio_cpu_bank_select_r (offset : Nat) (s : neogeo_state) : Nat × neogeo_state :=
  (0, set_cart_entry (offset &&& 3) (offset >>> 8) s)

/-! ## System control register -/

def system_control_w (offset _data : Nat) (s : neogeo_state) : neogeo_state :=
  let bit := ((offset >>> 3) &&& 0x01) % 2 ^ 8
  match offset &&& 0x07 with
  | 0x01 =>
    if s.m_type = neogeo_type.NEOGEO_CD then s else { s with m_use_cart_vectors := bit }
  | 0x05 =>
    if s.m_type = neogeo_type.NEOGEO_MVS then
      let s := { s with m_use_cart_audio := bit }
      let s := emit (device_call.neogeo_set_fixed_layer_source bit) s
      { s with m_bank_audio_main_entry := s.m_use_cart_audio }
    else s
  | 0x06 =>
    if s.m_type = neogeo_type.NEOGEO_MVS then set_save_ram_unlock bit s else s
  | 0x07 => emit (device_call.neogeo_set_palette_bank bit) s
  | 0x02 => s
  | 0x03 => s
  | 0x04 => s
  | _ => emit (device_call.neogeo_set_screen_shadow bit) s

/-! ## Machine initialization and reset -/

def machine_start (audiocpu_bytes : Nat) (has_audiobios : Bool) (s : neogeo_state) :
    neogeo_state :=
  let s := { s with m_type := neogeo_type.NEOGEO_MVS }
  let s := neogeo_main_cpu_banking_init s
  let s := neogeo_audio_cpu_banking_init audiocpu_bytes has_audiobios 1 s
  let s := { s with m_vblank_level := 1, m_raster_level := 2 }
  let s := { s with m_irq3_pending := 1 }
  let s := emit (device_call.upd4990a_w upd4990a_pin.cs 1) s
  let s := emit (device_call.upd4990a_w upd4990a_pin.oe 1) s
  let s := emit (device_call.upd4990a_w upd4990a_pin.c0 1) s
  let s := emit (device_call.upd4990a_w upd4990a_pin.c1 1) s
  emit (device_call.upd4990a_w upd4990a_pin.c2 1) s

def machine_reset (s : neogeo_state) : neogeo_state :=
  let s := (List.range 8).foldl (fun s offs => system_control_w offs 0 s) s
  let s := { s with m_audio_cpu_nmi_enabled := false }
  let s := { s with m_audio_cpu_nmi_pending := false }
  let s := audio_cpu_check_nmi s
  let s := emit device_call.maincpu_reset s
  let s := start_interrupt_timers s
  let s := update_interrupts s
  { s with m_recurse := false }

/-- A state before `machine_start`: every member zero, no device touched. -/
def power_on : neogeo_state where
  m_type := neogeo_type.NEOGEO_MVS
  m_display_position_interrupt_control := 0
  m_display_counter := 0
  m_vblank_interrupt_pending := 0
  m_display_position_interrupt_pending := 0
  m_irq3_pending := 0
  m_vblank_level := 0
  m_raster_level := 0
  m_audio_cpu_nmi_enabled := false
  m_audio_cpu_nmi_pending := false
  m_save_ram_unlocked := 0
  m_save_ram := List.replicate 0x8000 0
  m_output_data := 0
  m_output_latch := 0
  m_el_value := 0
  m_led1_value := 0
  m_led2_value := 0
  m_use_cart_vectors := 0
  m_use_cart_audio := 0
  m_recurse := false
  m_soundlatch := 0
  m_bank_audio_main_entry := 0
  m_bank_audio_main_config := fun _ => none
  m_bank_audio_cart_entry := fun _ => 0
  m_bank_audio_cart_config := fun _ _ => none
  calls := []

/-- A running MVS machine used to instantiate the statements below: levels as
set by `machine_start`, every display-position control bit set, all three
interrupts pending, save RAM unlocked. -/
def running : neogeo_state :=
  { power_on with
    m_display_position_interrupt_control := 0xf0
    m_display_counter := 0xffffffff
    m_vblank_interrupt_pending := 1
    m_display_position_interrupt_pending := 1
    m_irq3_pending := 1
    m_vblank_level := 1
    m_raster_level := 2
    m_audio_cpu_nmi_enabled := true
    m_save_ram_unlocked := 1
    m_save_ram := [0x1234, 0x5678, 0x9abc] }

/-! ## LEDs -/

/-- Seven-segment patterns indexed by `set_outputs`. -/
def led_map : List Nat :=
  [0x3f, 0x06, 0x5b, 0x4f, 0x66, 0x6d, 0x7d, 0x07, 0x7f, 0x6f, 0x58, 0x4c, 0x62, 0x69, 0x78, 0x00]

/-- Each digit receives `led_map[index]`; an index outside the table is recorded
as `none`. -/
def set_outputs (s : neogeo_state) : neogeo_state :=
  let s := emit (device_call.set_digit_value 0 led_map[s.m_el_value]?) s
  let s := emit (device_call.set_digit_value 1 led_map[s.m_led1_value >>> 4]?) s
  let s := emit (device_call.set_digit_value 2 led_map[s.m_led1_value &&& 0x0f]?) s
  let s := emit (device_call.set_digit_value 3 led_map[s.m_led2_value >>> 4]?) s
  emit (device_call.set_digit_value 4 led_map[s.m_led2_value &&& 0x0f]?) s

/-- The latch, the data byte and the three LED values are `uint8_t`. -/
def set_output_latch (data : Nat) (s : neogeo_state) : neogeo_state :=
  let data := data % 2 ^ 8
  let falling_bits := (s.m_output_latch &&& (0xff ^^^ data)) % 2 ^ 8
  let s := if falling_bits &&& 0x08 ≠ 0 then
      { s with m_el_value := (16 - (s.m_output_data &&& 0x0f)) % 2 ^ 8 } else s
  let s := if falling_bits &&& 0x10 ≠ 0 then
      { s with m_led1_value := 0xff ^^^ (s.m_output_data % 2 ^ 8) } else s
  let s := if falling_bits &&& 0x20 ≠ 0 then
      { s with m_led2_value := 0xff ^^^ (s.m_output_data % 2 ^ 8) } else s
  let s := { s with m_output_latch := data }
  set_outputs s

def set_output_data (data : Nat) (s : neogeo_state) : neogeo_state :=
  { s with m_output_data := data % 2 ^ 8 }

/-- A machine whose output latch has bits 3, 4 and 5 high and whose output data
byte is `0xa5`. -/
def latch_high : neogeo_state :=
  { running with
    m_output_latch := 0x3f
    m_output_data := 0xa5 }

/-! ## Audio address map and watchdog configuration -/

/-- Z80 base address of the window behind `m_bank_audio_cart[region]`:
`audio_f000`, `audio_e000`, `audio_c000`, `audio_8000` in `audio_map`. -/
def audio_window_base (region : Nat) : Nat :=
  match region with
  | 0 => 0xf000
  | 1 => 0xe000
  | 2 => 0xc000
  | _ => 0x8000

/-- Length in bytes of each window of `audio_map`
(`0xf000-0xf7ff`, `0xe000-0xefff`, `0xc000-0xdfff`, `0x8000-0xbfff`). -/
def audio_window_size (region : Nat) : Nat :=
  match region with
  | 0 => 0x800
  | 1 => 0x1000
  | 2 => 0x2000
  | _ => 0x4000

/-- Modelled from the spec: the value of `NEOGEO_MASTER_CLOCK`, declared in the
absent `includes/neogeo.h`; the watchdog note of the driver says the cycle count
is based on a 24 MHz clock. -/
def NEOGEO_MASTER_CLOCK_HZ : Nat := 24000000

/-- Watchdog timeout of `neogeo_arcade`:
`MCFG_WATCHDOG_TIME_INIT(attotime::from_ticks(3244030, NEOGEO_MASTER_CLOCK))`. -/
def neogeo_arcade_watchdog_time : attotime :=
  attotime.from_ticks 3244030 neogeo_clock.NEOGEO_MASTER_CLOCK

/-- Duration in seconds of a tick count on the master clock; other time
expressions have no fixed duration. -/
def master_clock_seconds (t : attotime) : Option ℚ :=
  match t with
  | attotime.from_ticks n neogeo_clock.NEOGEO_MASTER_CLOCK =>
    some ((n : ℚ) / (NEOGEO_MASTER_CLOCK_HZ : ℚ))
  | _ => none

/-! ## Unmapped memory access -/

/-- The handler reads the word at the current program counter through the
address space, and that read may itself be routed to this handler.  `space`
gives, for an address, `some w` when its handler returns the word `w` and `none`
when the address is served by `neogeo_unmapped_r`; `safe_pc` is the program
counter.  `fuel` bounds the depth of nested handler calls; `none` is returned
only when it is exhausted. -/
def neogeo_unmapped_r (fuel : Nat) (space : Nat → Option Nat) (safe_pc : Nat)
    (s : neogeo_state) : Option (Nat × neogeo_state) :=
  match fuel with
  | 0 => none
  | fuel + 1 =>
    if s.m_recurse then some (0xffff, s)
    else
      let s := { s with m_recurse := true }
      let s := emit (device_call.space_read_word safe_pc) s
      let read_word : Option (Nat × neogeo_state) :=
        match space safe_pc with
        | some w => some (w % 2 ^ 16, s)
        | none => neogeo_unmapped_r fuel space safe_pc s
      match read_word with
      | none => none
      | some (ret, s) => some (ret, { s with m_recurse := false })

/-- Number of `read_word` calls recorded in a list of calls. -/
def bus_reads (calls : List device_call) : Nat :=
  calls.countP fun c =>
    match c with
    | device_call.space_read_word _ => true
    | _ => false

/-- Indices into `led_map` used by `set_outputs`, in the order of the five
digits. -/
def led_indices (s : neogeo_state) : List Nat :=
  [s.m_el_value, s.m_led1_value >>> 4, s.m_led1_value &&& 0x0f,
   s.m_led2_value >>> 4, s.m_led2_value &&& 0x0f]

/-- A write to the output latch or to the output data byte. -/
inductive output_write
  | latch (data : Nat)
  | data (data : Nat)
  deriving DecidableEq, Repr

/-- Apply a sequence of output writes in order. -/
def run_output_writes (ws : List output_write) (s : neogeo_state) : neogeo_state :=
  ws.foldl (fun s w =>
    match w with
    | output_write.latch d => set_output_latch d s
    | output_write.data d => set_output_data d s) s

end neogeo_state

/-!
# Namco 50XX (`mame/machine/namco50.c`)

The device state and the handlers between the main CPU and the MB8842 MCU.
-/

/-- Fields of `struct _namco_50xx_state` other than the CPU pointer; all three
are `UINT8`. -/
structure namco_50xx_state where
  latched_cmd : Nat
  latched_rw : Nat
  portO : Nat
  deriving DecidableEq, Repr

/-- The timer parameter is stored into a `UINT8`. -/
def namco_50xx_latch_callback (param : Nat) (state : namco_50xx_state) : namco_50xx_state :=
  { state with latched_cmd := param % 2 ^ 8, latched_rw := 1 }

def namco_50xx_readrequest_callback (state : namco_50xx_state) : namco_50xx_state :=
  { state with latched_rw := 0 }

def namco_50xx_K_r (state : namco_50xx_state) : Nat :=
  state.latched_cmd >>> 4

def namco_50xx_R0_r (state : namco_50xx_state) : Nat :=
  state.latched_cmd &&& 0x0f

def namco_50xx_R2_r (state : namco_50xx_state) : Nat :=
  state.latched_rw &&& 1

def namco_50xx_O_w (data : Nat) (state : namco_50xx_state) : namco_50xx_state :=
  let data := data % 2 ^ 8
  let out := data &&& 0x0f
  if data &&& 0x10 ≠ 0 then
    { state with portO := ((state.portO &&& 0x0f) ||| (out <<< 4)) % 2 ^ 8 }
  else
    { state with portO := ((state.portO &&& 0xf0) ||| out) % 2 ^ 8 }

/-- Timer callbacks of the device. -/
inductive namco_50xx_timer
  | latch_callback
  | readrequest_callback
  | irq_clear
  deriving DecidableEq, Repr

/-- Calls the device makes into the scheduler and the MCU core. -/
inductive namco_50xx_call
  | cpu_set_input_line (line : Nat) (state : line_state)
  | timer_call_after_resynch (param : Nat) (callback : namco_50xx_timer)
  | timer_set_usec (usec : Nat) (param : Nat) (callback : namco_50xx_timer)
  deriving DecidableEq, Repr

/-- The device token together with the record of calls made. -/
structure namco_50xx_device where
  state : namco_50xx_state
  calls : List namco_50xx_call
  deriving DecidableEq, Repr

def namco_50xx_irq_clear (device : namco_50xx_device) : namco_50xx_device :=
  { device with calls := device.calls ++
      [namco_50xx_call.cpu_set_input_line 0 line_state.CLEAR_LINE] }

def namco_50xx_irq_set (device : namco_50xx_device) : namco_50xx_device :=
  { device with calls := device.calls ++
      [namco_50xx_call.cpu_set_input_line 0 line_state.ASSERT_LINE,
       namco_50xx_call.timer_set_usec 21 0 namco_50xx_timer.irq_clear] }

def namco_50xx_write (data : Nat) (device : namco_50xx_device) : namco_50xx_device :=
  namco_50xx_irq_set { device with calls := device.calls ++
      [namco_50xx_call.timer_call_after_resynch (data % 2 ^ 8)
        namco_50xx_timer.latch_callback] }

def namco_50xx_read_request (device : namco_50xx_device) : namco_50xx_device :=
  namco_50xx_irq_set { device with calls := device.calls ++
      [namco_50xx_call.timer_call_after_resynch 0 namco_50xx_timer.readrequest_callback] }

def namco_50xx_read (device : namco_50xx_device) : Nat × namco_50xx_device :=
  let res := device.state.portO
  (res, namco_50xx_read_request device)

/-- Run a timer callback scheduled by the device on its state. -/
def namco_50xx_run_timer (param : Nat) (callback : namco_50xx_timer)
    (device : namco_50xx_device) : namco_50xx_device :=
  match callback with
  | namco_50xx_timer.latch_callback =>
    { device with state := namco_50xx_latch_callback param device.state }
  | namco_50xx_timer.readrequest_callback =>
    { device with state := namco_50xx_readrequest_callback device.state }
  | namco_50xx_timer.irq_clear => namco_50xx_irq_clear device

/-!
# The Simpsons (`mame/drivers/simpsons.cpp`): screen timing
-/

namespace simpsons_state

/-- Arguments of `MCFG_SCREEN_RAW_PARAMS`: pixel clock in Hz, then the horizontal
and vertical totals and blanking positions. -/
structure screen_raw_params where
  pixclock : ℚ
  htotal : Nat
  hbend : Nat
  hbstart : Nat
  vtotal : Nat
  vbend : Nat
  vbstart : Nat

/-- `MCFG_SCREEN_RAW_PARAMS(XTAL(24'000'000)/3, 528, 112, 400, 256, 16, 240)`. -/
def simpsons_screen : screen_raw_params where
  pixclock := 24000000 / 3
  htotal := 528
  hbend := 112
  hbstart := 400
  vtotal := 256
  vbend := 16
  vbstart := 240

/-- Lines per second: pixel clock divided by the pixel clocks per line. -/
def line_rate_hz (p : screen_raw_params) : ℚ :=
  p.pixclock / (p.htotal : ℚ)

/-- Frames per second: pixel clock divided by the pixel clocks per frame. -/
def refresh_rate_hz (p : screen_raw_params) : ℚ :=
  p.pixclock / ((p.htotal : ℚ) * (p.vtotal : ℚ))

/-- Documented `VSync - 59.1856Hz`, in units of 0.0001 Hz. -/
def documented_vsync_e4 : ℤ := 591856

/-- Documented `HSync - 15.1566kHz`, in units of 0.0001 kHz. -/
def documented_hsync_e4 : ℤ := 151566

end simpsons_state

/-!
# The Simpsons: sprite DMA and interrupts
-/

/-- Timer identifiers passed to `device_timer`; any other value is `unknown`. -/
inductive simpsons_timer
  | TIMER_NMI
  | TIMER_DMAEND
  | unknown (id : Nat)
  deriving DecidableEq, Repr

/-- Interrupt inputs of the Konami main CPU. -/
inductive konami_line
  | KONAMI_IRQ_LINE
  | KONAMI_FIRQ_LINE
  deriving DecidableEq, Repr

/-- Calls the driver makes into the CPU cores and the scheduler. -/
inductive simpsons_call
  | maincpu_hold_line (line : konami_line)
  | audiocpu_set_input_line_nmi (state : line_state)
  | timer_set_usec (usec : Nat) (id : simpsons_timer)
  deriving DecidableEq, Repr

/-- Driver state used by the sprite DMA and the interrupt generator.  Sprite RAM
and the K053247 RAM are memories of 16-bit words addressed by word index; the
two interrupt-enable flags are read from the K053246 and K052109 devices. -/
structure simpsons_state where
  m_spriteram : Nat → Nat
  k053247_ram : Nat → Nat
  m_firq_enabled : Nat
  k053246_is_irq_enabled : Bool
  k052109_is_irq_enabled : Bool
  calls : List simpsons_call

namespace simpsons_state

/-- Test of the first word of a sprite entry: `(*src & 0x8000) && (*src & 0xff)`. -/
def sprite_active (w : Nat) : Bool :=
  (w &&& 0x8000 != 0) && (w &&& 0xff != 0)

/-- `memcpy(dst, src, 0x10)`: eight 16-bit words from `src + srcp` to
`dst + dstp`. -/
def memcpy_0x10 (dst src : Nat → Nat) (dstp srcp : Nat) : Nat → Nat :=
  fun p => if dstp ≤ p ∧ p < dstp + 8 then src (srcp + (p - dstp)) else dst p

/-- `*dst = value` at word index `dstp`. -/
def store_word (dst : Nat → Nat) (dstp value : Nat) : Nat → Nat :=
  fun p => if p = dstp then value else dst p

/-- Local variables of `simpsons_objdma`: the destination memory, the two
pointers as word indices, and `num_inactive`. -/
structure objdma_vars where
  dst : Nat → Nat
  srcp : Nat
  dstp : Nat
  num_inactive : Nat

/-- The `do ... while (--counter)` loop; `counter` is the number of iterations
still to run (the loop is entered with 256). -/
def objdma_copy_loop (src : Nat → Nat) : Nat → objdma_vars → objdma_vars
  | 0, v => v
  | counter + 1, v =>
    let v :=
      if sprite_active (src v.srcp) then
        { v with
          dst := memcpy_0x10 v.dst src v.dstp v.srcp
          dstp := v.dstp + 8
          num_inactive := v.num_inactive - 1 }
      else v
    objdma_copy_loop src counter { v with srcp := v.srcp + 8 }

/-- The `if (num_inactive) do ... while (--num_inactive)` loop, by the number of
iterations still to run. -/
def objdma_clear_loop : Nat → objdma_vars → objdma_vars
  | 0, v => v
  | n + 1, v =>
    objdma_clear_loop n
      { v with dst := store_word v.dst v.dstp 0, dstp := v.dstp + 8, num_inactive := n }

/-- Local variables at the end of `simpsons_objdma`. -/
def objdma_run (src dst : Nat → Nat) : objdma_vars :=
  let v := objdma_copy_loop src 256 { dst := dst, srcp := 0, dstp := 0, num_inactive := 256 }
  objdma_clear_loop v.num_inactive v

def simpsons_objdma (s : simpsons_state) : simpsons_state :=
  { s with k053247_ram := (objdma_run s.m_spriteram s.k053247_ram).dst }

def simpsons_irq (s : simpsons_state) : simpsons_state :=
  let s :=
    if s.k053246_is_irq_enabled then
      let s := simpsons_objdma s
      { s with calls := s.calls ++
          [simpsons_call.timer_set_usec 30 simpsons_timer.TIMER_DMAEND] }
    else s
  if s.k052109_is_irq_enabled then
    { s with calls := s.calls ++ [simpsons_call.maincpu_hold_line konami_line.KONAMI_IRQ_LINE] }
  else s

/-- An unknown timer identifier fails the assertion of the `default` case. -/
def device_timer (id : simpsons_timer) (s : simpsons_state) : Option simpsons_state :=
  match id with
  | simpsons_timer.TIMER_NMI =>
    some { s with calls := s.calls ++
      [simpsons_call.audiocpu_set_input_line_nmi line_state.ASSERT_LINE] }
  | simpsons_timer.TIMER_DMAEND =>
    if s.m_firq_enabled ≠ 0 then
      some { s with calls := s.calls ++
        [simpsons_call.maincpu_hold_line konami_line.KONAMI_FIRQ_LINE] }
    else some s
  | simpsons_timer.unknown _ => none

/-- Eight words of entry `i` of a sprite memory. -/
def sprite_entry (ram : Nat → Nat) (i : Nat) : List Nat :=
  (List.range 8).map fun m => ram (8 * i + m)

/-- A machine whose sprite RAM has entries 0 and 2 active and entry 1 inactive,
and whose K053247 RAM holds `0xaaaa` everywhere. -/
def sprite_sample : simpsons_state where
  m_spriteram := fun p =>
    if p = 0 then 0x8001 else if p = 8 then 0x0001 else if p = 16 then 0x80ff
    else if p < 24 then 0x1100 + p else 0
  k053247_ram := fun _ => 0xaaaa
  m_firq_enabled := 4
  k053246_is_irq_enabled := true
  k052109_is_irq_enabled := true
  calls := []

/-- A machine in which every sprite entry is active: each word of sprite RAM is
`0x8001`; the K053247 RAM holds `0xaaaa` everywhere. -/
def sprite_full : simpsons_state where
  m_spriteram := fun _ => 0x8001
  k053247_ram := fun _ => 0xaaaa
  m_firq_enabled := 4
  k053246_is_irq_enabled := true
  k052109_is_irq_enabled := true
  calls := []

/-- Indices, in increasing order, of the active entries among the `n` entries
starting at entry `a`. -/
def active_entries (src : Nat → Nat) (a n : Nat) : List Nat :=
  (List.range' a n).filter fun i => sprite_active (src (8 * i))

end simpsons_state

/-! ## Bit-level facts used below -/

theorem testBit_ffff (i : Nat) : Nat.testBit 0xffff i = decide (i < 16) := by
  have h : (0xffff : Nat) = 2 ^ 16 - 1 := by norm_num
  rw [h, Nat.testBit_two_pow_sub_one]

theorem testBit_ffff0000 (i : Nat) :
    Nat.testBit 0xffff0000 i = (decide (16 ≤ i) && decide (i < 32)) := by
  have h : (0xffff0000 : Nat) = (2 ^ 16 - 1) <<< 16 := by decide
  rw [h, Nat.testBit_shiftLeft, Nat.testBit_two_pow_sub_one]
  by_cases h16 : 16 ≤ i
  · simp [h16]; omega
  · simp [h16]

theorem testBit_of_lt_two_pow (b n i : Nat) (hb : b < 2 ^ n) (hi : n ≤ i) :
    b.testBit i = false :=
  Nat.testBit_lt_two_pow (lt_of_lt_of_le hb (Nat.pow_le_pow_right (by norm_num) hi))

theorem msb_word_lt (c a : Nat) (ha : a < 2 ^ 16) :
    (c &&& 0xffff) ||| (a <<< 16) < 2 ^ 32 := by
  apply Nat.or_lt_two_pow
  · exact Nat.and_lt_two_pow c (by norm_num)
  · rw [Nat.shiftLeft_eq]; omega

theorem lsb_word_lt (c b : Nat) (hb : b < 2 ^ 16) :
    (c &&& 0xffff0000) ||| b < 2 ^ 32 := by
  apply Nat.or_lt_two_pow
  · exact Nat.and_lt_two_pow c (by norm_num)
  · omega

theorem msb_then_lsb_word (c a b : Nat) (ha : a < 2 ^ 16) :
    ((((c &&& 0xffff) ||| (a <<< 16)) &&& 0xffff0000) ||| b) = (a <<< 16) ||| b := by
  apply Nat.eq_of_testBit_eq
  intro i
  simp only [Nat.testBit_or, Nat.testBit_and, Nat.testBit_shiftLeft, testBit_ffff,
    testBit_ffff0000]
  by_cases h : 16 ≤ i
  · by_cases h2 : i < 32
    · have h3 : ¬ i < 16 := by omega
      simp [h, h2, h3]
    · have h4 : a.testBit (i - 16) = false :=
        testBit_of_lt_two_pow a 16 (i - 16) ha (by omega)
      simp [h, h2, h4]
  · simp [h]

theorem lsb_then_msb_word (c a b : Nat) (hb : b < 2 ^ 16) :
    ((((c &&& 0xffff0000) ||| b) &&& 0xffff) ||| (a <<< 16)) = (a <<< 16) ||| b := by
  apply Nat.eq_of_testBit_eq
  intro i
  simp only [Nat.testBit_or, Nat.testBit_and, Nat.testBit_shiftLeft, testBit_ffff,
    testBit_ffff0000]
  by_cases h : 16 ≤ i
  · have h4 : b.testBit i = false := testBit_of_lt_two_pow b 16 i hb h
    have h3 : ¬ i < 16 := by omega
    simp [h, h4, h3]
  · have h3 : i < 16 := by omega
    simp [h, h3]

theorem mod_and_small (d k : Nat) (hk : k < 2 ^ 16) : (d % 2 ^ 16) &&& k = d &&& k := by
  apply Nat.eq_of_testBit_eq
  intro i
  simp only [Nat.testBit_and, Nat.testBit_mod_two_pow]
  by_cases h : i < 16
  · simp [h]
  · simp [h, testBit_of_lt_two_pow k 16 i hk (by omega)]

theorem and_two_pow_ne_zero (x i : Nat) : x &&& 2 ^ i ≠ 0 ↔ x.testBit i = true := by
  constructor
  · intro h
    by_contra hc
    apply h
    apply Nat.eq_of_testBit_eq
    intro j
    rw [Nat.testBit_and, Nat.testBit_two_pow, Nat.zero_testBit]
    by_cases hj : i = j
    · subst hj
      simp [hc]
    · simp [hj]
  · intro h hz
    have h2 : (x &&& 2 ^ i).testBit i = false := by rw [hz]; exact Nat.zero_testBit i
    rw [Nat.testBit_and, Nat.testBit_two_pow_self, h] at h2
    exact absurd h2 (by decide)

theorem falling_bit (p d i : Nat) (hi : i < 8) :
    ((p &&& (0xff ^^^ (d % 2 ^ 8))) % 2 ^ 8) &&& 2 ^ i ≠ 0
      ↔ (p &&& 2 ^ i ≠ 0 ∧ d &&& 2 ^ i = 0) := by
  have hff : (0xff : Nat) = 2 ^ 8 - 1 := by norm_num
  have hz : d &&& 2 ^ i = 0 ↔ d.testBit i = false := by
    rw [← not_iff_not, ← ne_eq, and_two_pow_ne_zero]
    simp
  rw [and_two_pow_ne_zero, and_two_pow_ne_zero, hz, Nat.testBit_mod_two_pow, Nat.testBit_and,
    Nat.testBit_xor, hff, Nat.testBit_two_pow_sub_one, Nat.testBit_mod_two_pow]
  simp [hi]

theorem and_full_low_mask (x A : Nat) (hx : x < 2 ^ 16) (hA : A % 2 ^ 16 = 2 ^ 16 - 1) :
    x &&& (A &&& 0x3ffff) = x := by
  have h3 : (0x3ffff : Nat) = 2 ^ 18 - 1 := by norm_num
  apply Nat.eq_of_testBit_eq
  intro i
  rw [Nat.testBit_and, Nat.testBit_and, h3, Nat.testBit_two_pow_sub_one]
  by_cases hi : i < 16
  · have hA2 : (A % 2 ^ 16).testBit i = true := by
      rw [hA, Nat.testBit_two_pow_sub_one]
      simp [hi]
    rw [Nat.testBit_mod_two_pow] at hA2
    have hA3 : A.testBit i = true := by simpa [hi] using hA2
    have h18 : i < 18 := by omega
    simp [hA3, h18]
  · simp [testBit_of_lt_two_pow x 16 i hx (by omega)]

theorem nibbles_recompose (d : Nat) : ((d >>> 4) <<< 4) ||| (d &&& 0x0f) = d := by
  have hf : (0x0f : Nat) = 2 ^ 4 - 1 := by norm_num
  apply Nat.eq_of_testBit_eq
  intro i
  rw [Nat.testBit_or, Nat.testBit_shiftLeft, Nat.testBit_shiftRight, Nat.testBit_and, hf,
    Nat.testBit_two_pow_sub_one]
  by_cases hi : i < 4
  · have h4 : ¬ i ≥ 4 := by omega
    simp [hi, h4]
  · have h4 : i ≥ 4 := by omega
    have e : 4 + (i - 4) = i := by omega
    simp [hi, h4, e]

namespace neogeo_state

/-! ## Display counter -/

theorem msb_counter (a : Nat) (s : neogeo_state) (ha : a < 2 ^ 16) :
    (neogeo_set_display_counter_msb a s).m_display_counter
      = (s.m_display_counter &&& 0x0000ffff) ||| (a <<< 16) := by
  have h1 : a <<< 16 < 2 ^ 32 := by rw [Nat.shiftLeft_eq]; omega
  simp only [neogeo_set_display_counter_msb, Nat.mod_eq_of_lt ha, Nat.mod_eq_of_lt h1,
    Nat.mod_eq_of_lt (msb_word_lt s.m_display_counter a ha)]

theorem lsb_counter (b : Nat) (s : neogeo_state) (hb : b < 2 ^ 16) :
    (neogeo_set_display_counter_lsb b s).m_display_counter
      = (s.m_display_counter &&& 0xffff0000) ||| b := by
  unfold neogeo_set_display_counter_lsb
  simp only [Nat.mod_eq_of_lt hb, Nat.mod_eq_of_lt (lsb_word_lt s.m_display_counter b hb)]
  split <;> rfl

/-- C1: the 32-bit display counter is composed from two 16-bit writes.  Writing
the upper half `a` yields `(c & 0x0000ffff) | (a << 16)`, writing the lower half
`b` yields `(c & 0xffff0000) | b`, and after both writes, in either order, the
counter is `(a << 16) | b` whatever it held before. -/
theorem display_counter_composed (s : neogeo_state) (a b : Nat)
    (ha : a < 2 ^ 16) (hb : b < 2 ^ 16) :
    (neogeo_set_display_counter_msb a s).m_display_counter
        = (s.m_display_counter &&& 0x0000ffff) ||| (a <<< 16)
    ∧ (neogeo_set_display_counter_lsb b s).m_display_counter
        = (s.m_display_counter &&& 0xffff0000) ||| b
    ∧ (neogeo_set_display_counter_lsb b
        (neogeo_set_display_counter_msb a s)).m_display_counter = (a <<< 16) ||| b
    ∧ (neogeo_set_display_counter_msb a
        (neogeo_set_display_counter_lsb b s)).m_display_counter = (a <<< 16) ||| b := by
  refine ⟨msb_counter a s ha, lsb_counter b s hb, ?_, ?_⟩
  · rw [lsb_counter b _ hb, msb_counter a s ha]
    exact msb_then_lsb_word s.m_display_counter a b ha
  · rw [msb_counter a _ ha, lsb_counter b s hb]
    exact lsb_then_msb_word s.m_display_counter a b hb

theorem display_counter_composed_witness :
    ((0x1234 : Nat) < 2 ^ 16 ∧ (0xabcd : Nat) < 2 ^ 16) ∧
    (neogeo_set_display_counter_lsb 0xabcd
      (neogeo_set_display_counter_msb 0x1234 running)).m_display_counter
        = (0x1234 <<< 16) ||| 0xabcd :=
  ⟨⟨by norm_num, by norm_num⟩,
    (display_counter_composed running 0x1234 0xabcd (by norm_num) (by norm_num)).2.2.1⟩

/-! ## Display-position timer -/

theorem period_ticks_eq (s : neogeo_state) (hc : s.m_display_counter < 2 ^ 32) :
    display_position_period_ticks s = s.m_display_counter + 1 := by
  unfold display_position_period_ticks
  rw [Nat.mod_eq_of_lt hc, Nat.mod_eq_of_lt (by omega)]

theorem adjust_calls (s : neogeo_state) :
    (adjust_display_position_interrupt_timer s).calls = s.calls ++
      [device_call.timer_adjust neogeo_timer.m_display_position_interrupt_timer
        (attotime.from_ticks (display_position_period_ticks s)
          neogeo_clock.NEOGEO_PIXEL_CLOCK)] := rfl

/-- C2: `adjust_display_position_interrupt_timer` arms the display-position timer
with a period of exactly `display_counter + 1` pixel-clock ticks, computed
without 32-bit wrap-around: for every 32-bit counter value the tick count is
the natural number `c + 1`, so `0xFFFFFFFF` gives `2 ^ 32` ticks, `0` gives one
tick, and the period is strictly positive. -/
theorem adjust_period_no_wrap (s : neogeo_state) (hc : s.m_display_counter < 2 ^ 32) :
    (adjust_display_position_interrupt_timer s).calls = s.calls ++
      [device_call.timer_adjust neogeo_timer.m_display_position_interrupt_timer
        (attotime.from_ticks (s.m_display_counter + 1) neogeo_clock.NEOGEO_PIXEL_CLOCK)]
    ∧ display_position_period_ticks s = s.m_display_counter + 1
    ∧ 0 < display_position_period_ticks s
    ∧ (s.m_display_counter = 0xFFFFFFFF → display_position_period_ticks s = 2 ^ 32)
    ∧ (s.m_display_counter = 0 → display_position_period_ticks s = 1) := by
  have h := period_ticks_eq s hc
  refine ⟨by rw [adjust_calls, h], h, by omega, ?_, ?_⟩
  · intro h1; rw [h, h1]; norm_num
  · intro h0; rw [h, h0]

theorem adjust_period_no_wrap_witness :
    running.m_display_counter < 2 ^ 32 ∧ display_position_period_ticks running = 2 ^ 32 :=
  ⟨by decide,
    (adjust_period_no_wrap running (by decide)).2.2.2.1 rfl⟩

theorem lsb_counter_lt (d : Nat) (s : neogeo_state) :
    (neogeo_set_display_counter_lsb d s).m_display_counter < 2 ^ 32 := by
  unfold neogeo_set_display_counter_lsb
  simp only
  split
  · exact Nat.mod_lt _ (by norm_num)
  · exact Nat.mod_lt _ (by norm_num)

/-- C3: load-relative mode.  A write to the lower half of the display counter
re-arms the display-position timer, with a period taken from the counter value
after the write, exactly when bit `0x20` of the display-position interrupt
control register is set; a write to the upper half or to the control register
itself makes no call into the scheduler. -/
theorem load_relative_rearm (s : neogeo_state) (d : Nat) :
    (neogeo_set_display_counter_lsb d s).calls
      = (if s.m_display_position_interrupt_control &&& 0x20 ≠ 0 then
          s.calls ++
            [device_call.timer_adjust neogeo_timer.m_display_position_interrupt_timer
              (attotime.from_ticks
                ((neogeo_set_display_counter_lsb d s).m_display_counter + 1)
                neogeo_clock.NEOGEO_PIXEL_CLOCK)]
        else s.calls)
    ∧ (neogeo_set_display_counter_msb d s).calls = s.calls
    ∧ (neogeo_set_display_position_interrupt_control d s).calls = s.calls := by
  refine ⟨?_, rfl, rfl⟩
  have hp := period_ticks_eq _ (lsb_counter_lt d s)
  by_cases h : s.m_display_position_interrupt_control &&& 0x20 = 0
  · simp [neogeo_set_display_counter_lsb, IRQ2CTRL_LOAD_RELATIVE, h]
  · rw [if_pos h, ← hp]
    simp [neogeo_set_display_counter_lsb, IRQ2CTRL_LOAD_RELATIVE, h,
      adjust_display_position_interrupt_timer, emit, display_position_period_ticks]

/-! ## Display-position interrupt and vertical-blank reload -/

theorem update_interrupts_calls (s : neogeo_state) :
    (update_interrupts s).calls = s.calls ++
      [device_call.maincpu_set_input_line 3 (line_of s.m_irq3_pending),
       device_call.maincpu_set_input_line s.m_raster_level
         (line_of s.m_display_position_interrupt_pending),
       device_call.maincpu_set_input_line s.m_vblank_level
         (line_of s.m_vblank_interrupt_pending)] := by
  simp [update_interrupts, emit]

/-- C4: when the display-position timer expires, the callback sets the
display-position pending flag exactly when control bit `0x10` is set and
otherwise leaves it at its previous value; it never clears a pending flag and
does not touch the IRQ3 and vblank pending flags. -/
theorem display_position_callback_pending (s : neogeo_state) :
    (display_position_interrupt_callback s).m_display_position_interrupt_pending
      = (if s.m_display_position_interrupt_control &&& 0x10 ≠ 0 then 1
         else s.m_display_position_interrupt_pending)
    ∧ ((display_position_interrupt_callback s).m_display_position_interrupt_pending = 0
        ↔ s.m_display_position_interrupt_control &&& 0x10 = 0
          ∧ s.m_display_position_interrupt_pending = 0)
    ∧ (display_position_interrupt_callback s).m_irq3_pending = s.m_irq3_pending
    ∧ (display_position_interrupt_callback s).m_vblank_interrupt_pending
        = s.m_vblank_interrupt_pending := by
  unfold display_position_interrupt_callback
  simp only [IRQ2CTRL_ENABLE, IRQ2CTRL_AUTOLOAD_REPEAT]
  by_cases h1 : s.m_display_position_interrupt_control &&& 0x10 = 0 <;>
  by_cases h2 : s.m_display_position_interrupt_control &&& 0x80 = 0 <;>
  simp [h1, h2, update_interrupts, emit, adjust_display_position_interrupt_timer]

/-- C5: the display counter is reloaded at vertical blank.  The callback re-arms
the display-position timer from the display counter (period `display_counter + 1`
pixel clocks) when control bit `0x40` is set and makes no call on it when the
bit is clear; in both cases its last call re-schedules itself at row
`NEOGEO_VBSTART`, scanline 224, plus 1146 master-clock ticks, which is also
where `start_interrupt_timers` schedules it, and it changes no pending flag. -/
theorem vblank_reload (s : neogeo_state) (hc : s.m_display_counter < 2 ^ 32) :
    (display_position_vblank_callback s).calls
      = s.calls
        ++ (if s.m_display_position_interrupt_control &&& 0x40 ≠ 0 then
              [device_call.timer_adjust neogeo_timer.m_display_position_interrupt_timer
                (attotime.from_ticks (s.m_display_counter + 1)
                  neogeo_clock.NEOGEO_PIXEL_CLOCK)]
            else [])
        ++ [device_call.timer_adjust neogeo_timer.m_display_position_vblank_timer
              (attotime.add (attotime.time_until_pos neogeo_vpos.NEOGEO_VBSTART)
                (attotime.from_ticks 1146 neogeo_clock.NEOGEO_MASTER_CLOCK))]
    ∧ (start_interrupt_timers s).calls
      = s.calls
        ++ [device_call.timer_adjust neogeo_timer.m_vblank_interrupt_timer
              (attotime.add (attotime.time_until_pos neogeo_vpos.NEOGEO_VBSTART)
                attotime.NEOGEO_VBLANK_IRQ_HTIM),
            device_call.timer_adjust neogeo_timer.m_display_position_vblank_timer
              (attotime.add (attotime.time_until_pos neogeo_vpos.NEOGEO_VBSTART)
                (attotime.from_ticks 1146 neogeo_clock.NEOGEO_MASTER_CLOCK))]
    ∧ (display_position_vblank_callback s).m_irq3_pending = s.m_irq3_pending
    ∧ (display_position_vblank_callback s).m_display_position_interrupt_pending
        = s.m_display_position_interrupt_pending
    ∧ (display_position_vblank_callback s).m_vblank_interrupt_pending
        = s.m_vblank_interrupt_pending
    ∧ (display_position_vblank_callback s).m_display_counter = s.m_display_counter
    ∧ neogeo_vpos.NEOGEO_VBSTART.scanline = 224
    ∧ (∃ t, (display_position_vblank_callback s).calls.getLast?
          = some (device_call.timer_adjust neogeo_timer.m_display_position_vblank_timer t)
        ∧ t.scheduled_position = some (224, 1146))
    ∧ (∃ t, (start_interrupt_timers s).calls.getLast?
          = some (device_call.timer_adjust neogeo_timer.m_display_position_vblank_timer t)
        ∧ t.scheduled_position = some (224, 1146)) := by
  have hp := period_ticks_eq s hc
  have hlast1 : (display_position_vblank_callback s).calls.getLast?
      = some (device_call.timer_adjust neogeo_timer.m_display_position_vblank_timer
          (attotime.add (attotime.time_until_pos neogeo_vpos.NEOGEO_VBSTART)
            (attotime.from_ticks 1146 neogeo_clock.NEOGEO_MASTER_CLOCK))) := by
    simp [display_position_vblank_callback, emit, NEOGEO_VBLANK_RELOAD_HTIM]
  have hlast2 : (start_interrupt_timers s).calls.getLast?
      = some (device_call.timer_adjust neogeo_timer.m_display_position_vblank_timer
          (attotime.add (attotime.time_until_pos neogeo_vpos.NEOGEO_VBSTART)
            (attotime.from_ticks 1146 neogeo_clock.NEOGEO_MASTER_CLOCK))) := by
    simp [start_interrupt_timers, emit, NEOGEO_VBLANK_RELOAD_HTIM]
  refine ⟨?_, ?_, ?_, ?_, ?_, ?_, rfl, ⟨_, hlast1, rfl⟩, ⟨_, hlast2, rfl⟩⟩
  · unfold display_position_vblank_callback
    simp only [IRQ2CTRL_AUTOLOAD_VBLANK, NEOGEO_VBLANK_RELOAD_HTIM]
    by_cases h1 : s.m_display_position_interrupt_control &&& 0x40 = 0
    · simp [h1, emit]
    · simp [h1, emit, adjust_display_position_interrupt_timer, hp]
  · simp [emit, start_interrupt_timers, NEOGEO_VBLANK_RELOAD_HTIM]
  · unfold display_position_vblank_callback
    by_cases h1 : s.m_display_position_interrupt_control &&& IRQ2CTRL_AUTOLOAD_VBLANK = 0
    · simp [h1, emit]
    · simp [h1, emit, adjust_display_position_interrupt_timer]
  · unfold display_position_vblank_callback
    by_cases h1 : s.m_display_position_interrupt_control &&& IRQ2CTRL_AUTOLOAD_VBLANK = 0
    · simp [h1, emit]
    · simp [h1, emit, adjust_display_position_interrupt_timer]
  · unfold display_position_vblank_callback
    by_cases h1 : s.m_display_position_interrupt_control &&& IRQ2CTRL_AUTOLOAD_VBLANK = 0
    · simp [h1, emit]
    · simp [h1, emit, adjust_display_position_interrupt_timer]
  · unfold display_position_vblank_callback
    by_cases h1 : s.m_display_position_interrupt_control &&& IRQ2CTRL_AUTOLOAD_VBLANK = 0
    · simp [h1, emit]
    · simp [h1, emit, adjust_display_position_interrupt_timer]

theorem vblank_reload_witness :
    running.m_display_counter < 2 ^ 32 ∧
    (display_position_vblank_callback running).calls =
      [device_call.timer_adjust neogeo_timer.m_display_position_interrupt_timer
        (attotime.from_ticks 0x100000000 neogeo_clock.NEOGEO_PIXEL_CLOCK),
       device_call.timer_adjust neogeo_timer.m_display_position_vblank_timer
        (attotime.add (attotime.time_until_pos neogeo_vpos.NEOGEO_VBSTART)
          (attotime.from_ticks 1146 neogeo_clock.NEOGEO_MASTER_CLOCK))] :=
  ⟨by decide, (vblank_reload running (by decide)).1⟩

/-! ## Interrupt acknowledge -/

theorem acknowledge_fields (d : Nat) (s : neogeo_state) :
    (neogeo_acknowledge_interrupt d s).m_irq3_pending
      = (if d &&& 0x01 ≠ 0 then 0 else s.m_irq3_pending)
    ∧ (neogeo_acknowledge_interrupt d s).m_display_position_interrupt_pending
      = (if d &&& 0x02 ≠ 0 then 0 else s.m_display_position_interrupt_pending)
    ∧ (neogeo_acknowledge_interrupt d s).m_vblank_interrupt_pending
      = (if d &&& 0x04 ≠ 0 then 0 else s.m_vblank_interrupt_pending) := by
  unfold neogeo_acknowledge_interrupt
  simp only [mod_and_small d 0x01 (by norm_num), mod_and_small d 0x02 (by norm_num),
    mod_and_small d 0x04 (by norm_num)]
  simp only [update_interrupts, emit]
  split_ifs <;> simp_all

theorem and_seven_and (d k : Nat) (hk : 7 &&& k = k) : (d &&& 7) &&& k = d &&& k := by
  rw [Nat.and_assoc, hk]

theorem or_and_ne_zero (a b k : Nat) :
    ((a ||| b) &&& k ≠ 0) ↔ (a &&& k ≠ 0 ∨ b &&& k ≠ 0) := by
  rw [Nat.and_comm (a ||| b) k, Nat.and_or_distrib_left, Nat.and_comm k a, Nat.and_comm k b]
  constructor
  · intro h
    by_contra hc
    push_neg at hc
    apply h
    rw [hc.1, hc.2]
    rfl
  · intro h hz
    have h0 : ∀ i, ((a &&& k) ||| (b &&& k)).testBit i = false := by
      intro i; rw [hz]; exact Nat.zero_testBit i
    rcases h with h | h
    · apply h
      apply Nat.eq_of_testBit_eq
      intro i
      have := h0 i
      rw [Nat.testBit_or, Bool.or_eq_false_iff] at this
      rw [this.1, Nat.zero_testBit]
    · apply h
      apply Nat.eq_of_testBit_eq
      intro i
      have := h0 i
      rw [Nat.testBit_or, Bool.or_eq_false_iff] at this
      rw [this.2, Nat.zero_testBit]

theorem clear_twice (a b k x : Nat) :
    (if b &&& k ≠ 0 then 0 else if a &&& k ≠ 0 then 0 else x)
      = (if (a ||| b) &&& k ≠ 0 then 0 else x) := by
  rw [if_congr (or_and_ne_zero a b k) rfl rfl]
  by_cases h1 : a &&& k ≠ 0 <;> by_cases h2 : b &&& k ≠ 0 <;> simp [h1, h2]

theorem acknowledge_low_bits (d : Nat) (s : neogeo_state) :
    neogeo_acknowledge_interrupt (d &&& 7) s = neogeo_acknowledge_interrupt d s := by
  unfold neogeo_acknowledge_interrupt
  simp only [mod_and_small _ 0x01 (by norm_num), mod_and_small _ 0x02 (by norm_num),
    mod_and_small _ 0x04 (by norm_num), and_seven_and d 0x01 (by decide),
    and_seven_and d 0x02 (by decide), and_seven_and d 0x04 (by decide)]

/-- C6: `neogeo_acknowledge_interrupt(data)` clears exactly the selected pending
flags.  IRQ3 pending becomes 0 when data bit 0 is set, display-position pending
when bit 1 is set, vblank pending when bit 2 is set; a flag whose bit is clear
keeps its value, so no flag is ever set; bits 3 and above of the data have no
effect on the resulting state; and acknowledging `a` and then `b` leaves the
same three flags as acknowledging `a | b`. -/
theorem acknowledge_clears_selected (s : neogeo_state) (a b : Nat) :
    ((neogeo_acknowledge_interrupt a s).m_irq3_pending
        = (if a &&& 0x01 ≠ 0 then 0 else s.m_irq3_pending)
      ∧ (neogeo_acknowledge_interrupt a s).m_display_position_interrupt_pending
        = (if a &&& 0x02 ≠ 0 then 0 else s.m_display_position_interrupt_pending)
      ∧ (neogeo_acknowledge_interrupt a s).m_vblank_interrupt_pending
        = (if a &&& 0x04 ≠ 0 then 0 else s.m_vblank_interrupt_pending))
    ∧ (((neogeo_acknowledge_interrupt a s).m_irq3_pending = 0
          ∨ (neogeo_acknowledge_interrupt a s).m_irq3_pending = s.m_irq3_pending)
      ∧ ((neogeo_acknowledge_interrupt a s).m_display_position_interrupt_pending = 0
          ∨ (neogeo_acknowledge_interrupt a s).m_display_position_interrupt_pending
              = s.m_display_position_interrupt_pending)
      ∧ ((neogeo_acknowledge_interrupt a s).m_vblank_interrupt_pending = 0
          ∨ (neogeo_acknowledge_interrupt a s).m_vblank_interrupt_pending
              = s.m_vblank_interrupt_pending))
    ∧ neogeo_acknowledge_interrupt (a &&& 7) s = neogeo_acknowledge_interrupt a s
    ∧ ((neogeo_acknowledge_interrupt b (neogeo_acknowledge_interrupt a s)).m_irq3_pending
        = (neogeo_acknowledge_interrupt (a ||| b) s).m_irq3_pending
      ∧ (neogeo_acknowledge_interrupt b
          (neogeo_acknowledge_interrupt a s)).m_display_position_interrupt_pending
        = (neogeo_acknowledge_interrupt (a ||| b) s).m_display_position_interrupt_pending
      ∧ (neogeo_acknowledge_interrupt b
          (neogeo_acknowledge_interrupt a s)).m_vblank_interrupt_pending
        = (neogeo_acknowledge_interrupt (a ||| b) s).m_vblank_interrupt_pending) := by
  obtain ⟨ha1, ha2, ha4⟩ := acknowledge_fields a s
  obtain ⟨hb1, hb2, hb4⟩ := acknowledge_fields b (neogeo_acknowledge_interrupt a s)
  obtain ⟨hc1, hc2, hc4⟩ := acknowledge_fields (a ||| b) s
  refine ⟨⟨ha1, ha2, ha4⟩, ⟨?_, ?_, ?_⟩, acknowledge_low_bits a s, ?_, ?_, ?_⟩
  · rw [ha1]; split
    · exact Or.inl rfl
    · exact Or.inr rfl
  · rw [ha2]; split
    · exact Or.inl rfl
    · exact Or.inr rfl
  · rw [ha4]; split
    · exact Or.inl rfl
    · exact Or.inr rfl
  · rw [hb1, hc1, ha1]
    exact clear_twice a b 0x01 s.m_irq3_pending
  · rw [hb2, hc2, ha2]
    exact clear_twice a b 0x02 s.m_display_position_interrupt_pending
  · rw [hb4, hc4, ha4]
    exact clear_twice a b 0x04 s.m_vblank_interrupt_pending

/-! ## Machine start and reset -/

theorem system_control_w_frame (offset data : Nat) (s : neogeo_state) :
    (system_control_w offset data s).m_irq3_pending = s.m_irq3_pending
    ∧ (system_control_w offset data s).m_display_position_interrupt_pending
        = s.m_display_position_interrupt_pending
    ∧ (system_control_w offset data s).m_vblank_interrupt_pending
        = s.m_vblank_interrupt_pending
    ∧ (system_control_w offset data s).m_raster_level = s.m_raster_level
    ∧ (system_control_w offset data s).m_vblank_level = s.m_vblank_level := by
  unfold system_control_w
  simp only
  split <;> (try split) <;> simp [emit, set_save_ram_unlock]

theorem system_control_fold_frame (l : List Nat) (s : neogeo_state) :
    (l.foldl (fun s offs => system_control_w offs 0 s) s).m_irq3_pending = s.m_irq3_pending
    ∧ (l.foldl (fun s offs => system_control_w offs 0 s) s).m_display_position_interrupt_pending
        = s.m_display_position_interrupt_pending
    ∧ (l.foldl (fun s offs => system_control_w offs 0 s) s).m_vblank_interrupt_pending
        = s.m_vblank_interrupt_pending
    ∧ (l.foldl (fun s offs => system_control_w offs 0 s) s).m_raster_level = s.m_raster_level
    ∧ (l.foldl (fun s offs => system_control_w offs 0 s) s).m_vblank_level
        = s.m_vblank_level := by
  induction l generalizing s with
  | nil => simp
  | cons x xs ih =>
    obtain ⟨h1, h2, h3, h4, h5⟩ := system_control_w_frame x 0 s
    obtain ⟨i1, i2, i3, i4, i5⟩ := ih (system_control_w x 0 s)
    rw [List.foldl_cons]
    exact ⟨i1.trans h1, i2.trans h2, i3.trans h3, i4.trans h4, i5.trans h5⟩

theorem machine_reset_frame (s : neogeo_state) :
    (machine_reset s).m_irq3_pending = s.m_irq3_pending
    ∧ (machine_reset s).m_display_position_interrupt_pending
        = s.m_display_position_interrupt_pending
    ∧ (machine_reset s).m_vblank_interrupt_pending = s.m_vblank_interrupt_pending
    ∧ (machine_reset s).m_raster_level = s.m_raster_level
    ∧ (machine_reset s).m_vblank_level = s.m_vblank_level := by
  obtain ⟨h1, h2, h3, h4, h5⟩ := system_control_fold_frame (List.range 8) s
  simp only [machine_reset, update_interrupts, start_interrupt_timers, emit,
    audio_cpu_check_nmi]
  exact ⟨h1, h2, h3, h4, h5⟩

theorem append_three (l : List device_call) (a b c : device_call) :
    ((l ++ [a]) ++ [b]) ++ [c] = l ++ [a, b, c] := by
  simp

theorem machine_reset_calls (s : neogeo_state) :
    ∃ pre, (machine_reset s).calls = pre ++
      [device_call.maincpu_set_input_line 3 (line_of s.m_irq3_pending),
       device_call.maincpu_set_input_line s.m_raster_level
         (line_of s.m_display_position_interrupt_pending),
       device_call.maincpu_set_input_line s.m_vblank_level
         (line_of s.m_vblank_interrupt_pending)] := by
  obtain ⟨h1, h2, h3, h4, h5⟩ := system_control_fold_frame (List.range 8) s
  simp only [machine_reset, update_interrupts, start_interrupt_timers, emit,
    audio_cpu_check_nmi, h1, h2, h3, h4, h5]
  exact ⟨_, append_three _ _ _ _⟩

theorem maincpu_line_three (s : neogeo_state) (pre : List device_call) (r v : Nat)
    (x y z : line_state) (hr : r ≠ 3) (hv : v ≠ 3)
    (h : s.calls = pre ++ [device_call.maincpu_set_input_line 3 x,
      device_call.maincpu_set_input_line r y, device_call.maincpu_set_input_line v z]) :
    maincpu_line 3 s = some x := by
  unfold maincpu_line
  rw [h]
  simp [hr, hv]

theorem acknowledge_levels (d : Nat) (s : neogeo_state) :
    (neogeo_acknowledge_interrupt d s).m_raster_level = s.m_raster_level
    ∧ (neogeo_acknowledge_interrupt d s).m_vblank_level = s.m_vblank_level := by
  unfold neogeo_acknowledge_interrupt
  simp only [update_interrupts, emit]
  split_ifs <;> simp

theorem machine_start_fields (n : Nat) (bios : Bool) (s : neogeo_state) :
    (machine_start n bios s).m_irq3_pending = 1
    ∧ (machine_start n bios s).m_raster_level = 2
    ∧ (machine_start n bios s).m_vblank_level = 1 :=
  ⟨rfl, rfl, rfl⟩

theorem reset_after_acknowledge (s : neogeo_state) (d : Nat)
    (hr : s.m_raster_level ≠ 3) (hv : s.m_vblank_level ≠ 3) (hd : d &&& 0x01 ≠ 0) :
    maincpu_line 3 (machine_reset (neogeo_acknowledge_interrupt d s))
      = some line_state.CLEAR_LINE := by
  obtain ⟨pre, hpre⟩ := machine_reset_calls (neogeo_acknowledge_interrupt d s)
  obtain ⟨l1, l2⟩ := acknowledge_levels d s
  have a1 := (acknowledge_fields d s).1
  rw [if_pos hd] at a1
  have h := maincpu_line_three _ pre _ _ _ _ _ (by rw [l1]; exact hr) (by rw [l2]; exact hv)
    hpre
  rw [h, a1]
  rfl

/-- C7: the machine starts with an IRQ3 but a reset does not raise one.
`machine_start` sets the IRQ3 pending flag to 1; `machine_reset` writes none of
the three pending flags and ends by driving the three lines from them; hence
the reset that follows `machine_start` asserts main-CPU line 3, while a reset
performed after an acknowledge with bit 0 set leaves line 3 cleared: from any
state whose raster and vblank levels differ from 3, and in particular in the
sequence start, reset, acknowledge, reset. -/
theorem irq3_on_start_not_on_reset (n : Nat) (bios : Bool) (s0 s : neogeo_state) (d : Nat)
    (hr : s.m_raster_level ≠ 3) (hv : s.m_vblank_level ≠ 3) (hd : d &&& 0x01 ≠ 0) :
    (machine_start n bios s0).m_irq3_pending = 1
    ∧ ((machine_reset s).m_irq3_pending = s.m_irq3_pending
      ∧ (machine_reset s).m_display_position_interrupt_pending
          = s.m_display_position_interrupt_pending
      ∧ (machine_reset s).m_vblank_interrupt_pending = s.m_vblank_interrupt_pending)
    ∧ (∃ pre, (machine_reset s).calls = pre ++
        [device_call.maincpu_set_input_line 3 (line_of s.m_irq3_pending),
         device_call.maincpu_set_input_line s.m_raster_level
           (line_of s.m_display_position_interrupt_pending),
         device_call.maincpu_set_input_line s.m_vblank_level
           (line_of s.m_vblank_interrupt_pending)])
    ∧ maincpu_line 3 (machine_reset (machine_start n bios s0)) = some line_state.ASSERT_LINE
    ∧ maincpu_line 3 (machine_reset (neogeo_acknowledge_interrupt d s))
        = some line_state.CLEAR_LINE
    ∧ maincpu_line 3 (machine_reset (neogeo_acknowledge_interrupt d
        (machine_reset (machine_start n bios s0)))) = some line_state.CLEAR_LINE := by
  obtain ⟨f1, f2, f3, _, _⟩ := machine_reset_frame s
  refine ⟨rfl, ⟨f1, f2, f3⟩, machine_reset_calls s, ?_, reset_after_acknowledge s d hr hv hd, ?_⟩
  · obtain ⟨pre, hpre⟩ := machine_reset_calls (machine_start n bios s0)
    obtain ⟨m1, m2, m3⟩ := machine_start_fields n bios s0
    have h := maincpu_line_three _ pre _ _ _ _ _ (by rw [m2]; decide) (by rw [m3]; decide) hpre
    rw [h, m1]
    rfl
  · obtain ⟨_, _, _, g4, g5⟩ := machine_reset_frame (machine_start n bios s0)
    obtain ⟨_, m2, m3⟩ := machine_start_fields n bios s0
    exact reset_after_acknowledge _ d (by rw [g4, m2]; decide) (by rw [g5, m3]; decide) hd

theorem irq3_on_start_not_on_reset_witness :
    (running.m_raster_level ≠ 3 ∧ running.m_vblank_level ≠ 3 ∧ 1 &&& 0x01 ≠ 0)
    ∧ maincpu_line 3 (machine_reset (machine_start 0x20000 true power_on))
        = some line_state.ASSERT_LINE
    ∧ maincpu_line 3 (machine_reset (neogeo_acknowledge_interrupt 1 running))
        = some line_state.CLEAR_LINE :=
  ⟨⟨by decide, by decide, by decide⟩,
    (irq3_on_start_not_on_reset 0x20000 true power_on running 1
      (by decide) (by decide) (by decide)).2.2.2.1,
    (irq3_on_start_not_on_reset 0x20000 true power_on running 1
      (by decide) (by decide) (by decide)).2.2.2.2.1⟩

/-! ## Audio CPU NMI -/

theorem audiocpu_nmi_line_emit_nmi (s : neogeo_state) (v : line_state) :
    audiocpu_nmi_line (emit (device_call.audiocpu_set_input_line_nmi v) s) = some v := by
  simp [audiocpu_nmi_line, emit]

theorem audiocpu_nmi_line_append (s : neogeo_state) (pre post : List device_call)
    (v : line_state) (h : s.calls = pre ++ device_call.audiocpu_set_input_line_nmi v :: post)
    (hpost : ∀ c ∈ post, ∀ w, c ≠ device_call.audiocpu_set_input_line_nmi w) :
    audiocpu_nmi_line s = some v := by
  unfold audiocpu_nmi_line
  rw [h, List.reverse_append, List.reverse_cons, List.findSome?_append, List.findSome?_append]
  have hnone : List.findSome? (fun c => match c with
      | device_call.audiocpu_set_input_line_nmi v => some v
      | _ => none) post.reverse = none := by
    rw [List.findSome?_eq_none_iff]
    intro c hc
    have hc2 := hpost c (List.mem_reverse.mp hc)
    cases c <;> first | rfl | exact absurd rfl (hc2 _)
  rw [hnone]
  simp

theorem machine_reset_nmi (s : neogeo_state) :
    audiocpu_nmi_line (machine_reset s) = some line_state.CLEAR_LINE
    ∧ (machine_reset s).m_audio_cpu_nmi_enabled = false
    ∧ (machine_reset s).m_audio_cpu_nmi_pending = false := by
  refine ⟨?_, rfl, rfl⟩
  apply audiocpu_nmi_line_append (machine_reset s)
    ((List.range 8).foldl (fun s offs => system_control_w offs 0 s) s).calls
    [device_call.maincpu_reset,
     device_call.timer_adjust neogeo_timer.m_vblank_interrupt_timer
       (attotime.add (attotime.time_until_pos neogeo_vpos.NEOGEO_VBSTART)
         attotime.NEOGEO_VBLANK_IRQ_HTIM),
     device_call.timer_adjust neogeo_timer.m_display_position_vblank_timer
       (attotime.add (attotime.time_until_pos neogeo_vpos.NEOGEO_VBSTART)
         NEOGEO_VBLANK_RELOAD_HTIM),
     device_call.maincpu_set_input_line 3
       (line_of ((List.range 8).foldl (fun s offs => system_control_w offs 0 s) s).m_irq3_pending),
     device_call.maincpu_set_input_line
       ((List.range 8).foldl (fun s offs => system_control_w offs 0 s) s).m_raster_level
       (line_of ((List.range 8).foldl
         (fun s offs => system_control_w offs 0 s) s).m_display_position_interrupt_pending),
     device_call.maincpu_set_input_line
       ((List.range 8).foldl (fun s offs => system_control_w offs 0 s) s).m_vblank_level
       (line_of ((List.range 8).foldl
         (fun s offs => system_control_w offs 0 s) s).m_vblank_interrupt_pending)]
    line_state.CLEAR_LINE
  · simp [machine_reset, update_interrupts, start_interrupt_timers, emit, audio_cpu_check_nmi]
  · intro c hc w
    simp only [List.mem_cons, List.mem_singleton, List.not_mem_nil, or_false] at hc
    rcases hc with h | h | h | h | h | h <;> rw [h] <;> simp

/-- C8: audio-CPU NMI invariant.  After each of `audio_command_w`,
`audio_command_r`, `audio_cpu_enable_nmi_w` and `machine_reset`, the audio CPU
NMI line is asserted when the NMI-enabled flag and the NMI-pending flag of the
resulting state are both true, and cleared otherwise. -/
theorem audio_nmi_invariant (s : neogeo_state) (offset data : Nat) :
    audiocpu_nmi_line (audio_command_w data s)
      = some (if (audio_command_w data s).m_audio_cpu_nmi_enabled
                  && (audio_command_w data s).m_audio_cpu_nmi_pending
              then line_state.ASSERT_LINE else line_state.CLEAR_LINE)
    ∧ audiocpu_nmi_line (audio_command_r s).2
      = some (if (audio_command_r s).2.m_audio_cpu_nmi_enabled
                  && (audio_command_r s).2.m_audio_cpu_nmi_pending
              then line_state.ASSERT_LINE else line_state.CLEAR_LINE)
    ∧ audiocpu_nmi_line (audio_cpu_enable_nmi_w offset data s)
      = some (if (audio_cpu_enable_nmi_w offset data s).m_audio_cpu_nmi_enabled
                  && (audio_cpu_enable_nmi_w offset data s).m_audio_cpu_nmi_pending
              then line_state.ASSERT_LINE else line_state.CLEAR_LINE)
    ∧ audiocpu_nmi_line (machine_reset s)
      = some (if (machine_reset s).m_audio_cpu_nmi_enabled
                  && (machine_reset s).m_audio_cpu_nmi_pending
              then line_state.ASSERT_LINE else line_state.CLEAR_LINE) := by
  refine ⟨?_, ?_, ?_, ?_⟩
  · simp [audiocpu_nmi_line, audio_command_w, audio_cpu_check_nmi, emit]
  · simp [audiocpu_nmi_line, audio_command_r, audio_cpu_check_nmi, emit]
  · simp [audiocpu_nmi_line, audio_cpu_enable_nmi_w, audio_cpu_check_nmi, emit]
  · obtain ⟨h1, h2, h3⟩ := machine_reset_nmi s
    rw [h1, h2, h3]
    rfl

/-- C9: out ($08) enables the audio NMI and out ($18) disables it.  For every
port offset passed to `audio_cpu_enable_nmi_w` the NMI-enabled flag becomes true
exactly when bit `0x10` of the offset is clear, whatever the data byte and the
previous flag value; the NMI-pending flag is unchanged. -/
theorem enable_nmi_by_offset (s : neogeo_state) (offset data : Nat) :
    ((audio_cpu_enable_nmi_w offset data s).m_audio_cpu_nmi_enabled = true
      ↔ offset &&& 0x10 = 0)
    ∧ ((audio_cpu_enable_nmi_w offset data s).m_audio_cpu_nmi_enabled = true
      ↔ offset.testBit 4 = false)
    ∧ (∀ data2 s2, (audio_cpu_enable_nmi_w offset data2 s2).m_audio_cpu_nmi_enabled
        = (audio_cpu_enable_nmi_w offset data s).m_audio_cpu_nmi_enabled)
    ∧ (audio_cpu_enable_nmi_w offset data s).m_audio_cpu_nmi_pending
        = s.m_audio_cpu_nmi_pending
    ∧ (audio_cpu_enable_nmi_w 0x08 data s).m_audio_cpu_nmi_enabled = true
    ∧ (audio_cpu_enable_nmi_w 0x18 data s).m_audio_cpu_nmi_enabled = false := by
  have hbit : offset &&& 0x10 = 0 ↔ offset.testBit 4 = false := by
    have h16 : (0x10 : Nat) = 2 ^ 4 := by norm_num
    constructor
    · intro h
      have h2 : (offset &&& 0x10).testBit 4 = false := by rw [h]; exact Nat.zero_testBit 4
      rw [Nat.testBit_and, h16, Nat.testBit_two_pow_self, Bool.and_true] at h2
      exact h2
    · intro h
      apply Nat.eq_of_testBit_eq
      intro i
      rw [Nat.testBit_and, h16, Nat.testBit_two_pow, Nat.zero_testBit]
      by_cases hi : 4 = i
      · subst hi; simp [h]
      · simp [hi]
  have henabled : (audio_cpu_enable_nmi_w offset data s).m_audio_cpu_nmi_enabled = true
      ↔ offset &&& 0x10 = 0 := by
    simp [audio_cpu_enable_nmi_w, audio_cpu_check_nmi, emit]
  refine ⟨henabled, henabled.trans hbit, ?_, rfl, ?_, ?_⟩
  · intro data2 s2
    rfl
  · rfl
  · rfl

/-! ## Save RAM -/

theorem COMBINE_DATA_eq (old data mem_mask : Nat)
    (hd : data < 2 ^ 16) (hm : mem_mask < 2 ^ 16) :
    COMBINE_DATA old data mem_mask
      = (old &&& (0xffff ^^^ mem_mask)) ||| (data &&& mem_mask) := by
  unfold COMBINE_DATA
  rw [Nat.mod_eq_of_lt hd, Nat.mod_eq_of_lt hm]
  apply Nat.mod_eq_of_lt
  apply Nat.or_lt_two_pow
  · exact Nat.and_lt_two_pow old (Nat.xor_lt_two_pow (by norm_num) hm)
  · exact Nat.and_lt_two_pow data hm

/-- C10: save RAM lock.  `save_ram_w` leaves every word of save RAM unchanged
when the unlock flag is 0; when the flag is non-zero it changes only the
addressed word, to `(old & ~mem_mask) | (data & mem_mask)` with the 16-bit
complement of the mask, and no other word. -/
theorem save_ram_lock (s : neogeo_state) (offset data mem_mask : Nat)
    (hd : data < 2 ^ 16) (hm : mem_mask < 2 ^ 16) :
    (save_ram_w offset data mem_mask { s with m_save_ram_unlocked := 0 }).m_save_ram
      = s.m_save_ram
    ∧ (∀ j, (save_ram_w offset data mem_mask s).m_save_ram[j]?
        = if s.m_save_ram_unlocked ≠ 0 ∧ j = offset then
            (s.m_save_ram[j]?).map
              (fun old => (old &&& (0xffff ^^^ mem_mask)) ||| (data &&& mem_mask))
          else s.m_save_ram[j]?)
    ∧ (save_ram_w offset data mem_mask s).m_save_ram.length = s.m_save_ram.length := by
  refine ⟨by simp [save_ram_w], ?_, ?_⟩
  · intro j
    by_cases hu : s.m_save_ram_unlocked = 0
    · simp [save_ram_w, hu]
    · by_cases hj : j = offset
      · subst hj
        simp [save_ram_w, hu, COMBINE_DATA_eq _ data mem_mask hd hm]
      · have hj2 : offset ≠ j := fun h => hj h.symm
        simp [save_ram_w, hu, hj, List.getElem?_modify_ne _ _ hj2]
  · by_cases hu : s.m_save_ram_unlocked = 0
    · simp [save_ram_w, hu]
    · simp [save_ram_w, hu]

theorem save_ram_lock_witness :
    ((0xbeef : Nat) < 2 ^ 16 ∧ (0x00ff : Nat) < 2 ^ 16)
    ∧ (save_ram_w 1 0xbeef 0x00ff running).m_save_ram = [0x1234, 0x56ef, 0x9abc]
    ∧ (save_ram_w 1 0xbeef 0x00ff { running with m_save_ram_unlocked := 0 }).m_save_ram
        = [0x1234, 0x5678, 0x9abc] :=
  ⟨⟨by norm_num, by norm_num⟩, by
    have h := (save_ram_lock running 1 0xbeef 0x00ff (by norm_num) (by norm_num)).2.1
    apply List.ext_getElem?
    intro j
    rw [h]
    match j with
    | 0 => decide
    | 1 => decide
    | 2 => decide
    | (k + 3) => simp [running],
    (save_ram_lock running 1 0xbeef 0x00ff (by norm_num) (by norm_num)).1⟩

/-! ## System control register -/

theorem bit_mod_byte (x : Nat) : (x &&& 0x01) % 2 ^ 8 = x &&& 0x01 :=
  Nat.mod_eq_of_lt (lt_of_le_of_lt Nat.and_le_right (by norm_num))

/-- C11: `system_control_w` is address-decoded.  The register is `offset & 7` and
the value written is bit 3 of the offset, so two calls with the same offset and
different data give equal states.  On MVS hardware register 1 sets
`use_cart_vectors` to that bit, register 5 sets `use_cart_audio` and the audio
main bank entry to it, register 6 sets the save-RAM unlock flag to it, and
registers 2, 3 and 4 leave the state as it was. -/
theorem system_control_address_decoded (s : neogeo_state) (o d1 d2 : Nat)
    (hm : s.m_type = neogeo_type.NEOGEO_MVS) :
    system_control_w o d1 s = system_control_w o d2 s
    ∧ (o &&& 0x07 = 1 →
        system_control_w o d1 s = { s with m_use_cart_vectors := (o >>> 3) &&& 0x01 })
    ∧ (o &&& 0x07 = 5 →
        system_control_w o d1 s =
          { s with
            m_use_cart_audio := (o >>> 3) &&& 0x01
            m_bank_audio_main_entry := (o >>> 3) &&& 0x01
            calls := s.calls ++
              [device_call.neogeo_set_fixed_layer_source ((o >>> 3) &&& 0x01)] })
    ∧ (o &&& 0x07 = 6 →
        system_control_w o d1 s = { s with m_save_ram_unlocked := (o >>> 3) &&& 0x01 })
    ∧ (o &&& 0x07 = 2 ∨ o &&& 0x07 = 3 ∨ o &&& 0x07 = 4 → system_control_w o d1 s = s) := by
  refine ⟨rfl, ?_, ?_, ?_, ?_⟩
  · intro h
    unfold system_control_w
    simp only [h, hm, bit_mod_byte]
    rfl
  · intro h
    unfold system_control_w
    simp only [h, hm, bit_mod_byte, emit]
    rfl
  · intro h
    unfold system_control_w
    simp only [h, hm, bit_mod_byte, set_save_ram_unlock]
    rfl
  · intro h
    unfold system_control_w
    rcases h with h | h | h <;> simp only [h]

theorem system_control_address_decoded_witness :
    running.m_type = neogeo_type.NEOGEO_MVS
    ∧ (system_control_w 0x0e 0xff running).m_save_ram_unlocked = 1
    ∧ (system_control_w 0x06 0xff running).m_save_ram_unlocked = 0
    ∧ system_control_w 0x0b 0xff running = running :=
  ⟨rfl,
    congrArg neogeo_state.m_save_ram_unlocked
      ((system_control_address_decoded running 0x0e 0xff 0 rfl).2.2.2.1 (by decide)),
    congrArg neogeo_state.m_save_ram_unlocked
      ((system_control_address_decoded running 0x06 0xff 0 rfl).2.2.2.1 (by decide)),
    (system_control_address_decoded running 0x0b 0xff 0 rfl).2.2.2.2 (by decide)⟩

theorem mvs_state_eq (s : neogeo_state) (hm : s.m_type = neogeo_type.NEOGEO_MVS) :
    s = { s with m_type := neogeo_type.NEOGEO_MVS } := by
  cases s
  simp_all

theorem reset_registers_mvs (s : neogeo_state) (hm : s.m_type = neogeo_type.NEOGEO_MVS) :
    (machine_reset s).m_use_cart_vectors = 0
    ∧ (machine_reset s).m_use_cart_audio = 0
    ∧ (machine_reset s).m_save_ram_unlocked = 0
    ∧ (machine_reset s).m_bank_audio_main_entry = 0 := by
  have h : ∀ t : neogeo_state, t = { s with m_type := neogeo_type.NEOGEO_MVS } →
      (machine_reset t).m_use_cart_vectors = 0
      ∧ (machine_reset t).m_use_cart_audio = 0
      ∧ (machine_reset t).m_save_ram_unlocked = 0
      ∧ (machine_reset t).m_bank_audio_main_entry = 0 := by
    intro t ht
    subst ht
    exact ⟨rfl, rfl, rfl, rfl⟩
  exact h s (mvs_state_eq s hm)

/-- C12: `machine_reset` resets the system control registers and disables the
audio NMI.  From every state of an MVS machine, after `machine_reset` the
`use_cart_vectors` and `use_cart_audio` registers and the save-RAM unlock flag
are 0 (so a save-RAM write changes nothing), the audio NMI enabled and pending
flags are false, the audio NMI line is cleared, and the unmapped-read recursion
guard is false. -/
theorem machine_reset_registers (s : neogeo_state) (offset data mem_mask : Nat)
    (hm : s.m_type = neogeo_type.NEOGEO_MVS) :
    (machine_reset s).m_use_cart_vectors = 0
    ∧ (machine_reset s).m_use_cart_audio = 0
    ∧ (machine_reset s).m_save_ram_unlocked = 0
    ∧ (save_ram_w offset data mem_mask (machine_reset s)).m_save_ram
        = (machine_reset s).m_save_ram
    ∧ (machine_reset s).m_audio_cpu_nmi_enabled = false
    ∧ (machine_reset s).m_audio_cpu_nmi_pending = false
    ∧ audiocpu_nmi_line (machine_reset s) = some line_state.CLEAR_LINE
    ∧ (machine_reset s).m_recurse = false := by
  obtain ⟨h1, h2, hu, _⟩ := reset_registers_mvs s hm
  obtain ⟨n1, n2, n3⟩ := machine_reset_nmi s
  refine ⟨h1, h2, hu, ?_, n2, n3, n1, rfl⟩
  simp [save_ram_w, hu]

theorem machine_reset_registers_witness :
    running.m_type = neogeo_type.NEOGEO_MVS
    ∧ running.m_save_ram_unlocked = 1
    ∧ (machine_reset running).m_save_ram_unlocked = 0
    ∧ (save_ram_w 1 0xbeef 0xffff (machine_reset running)).m_save_ram
        = (machine_reset running).m_save_ram :=
  ⟨rfl, rfl, (machine_reset_registers running 1 0xbeef 0xffff rfl).2.2.1,
    (machine_reset_registers running 1 0xbeef 0xffff rfl).2.2.2.1⟩

/-! ## Watchdog -/

/-- C13: the watchdog resets the system after about 0.13 seconds, exactly
3,244,030 cycles of the 24 MHz master clock.  The timeout configured by
`neogeo_arcade` is 3244030 master-clock ticks, that is the rational
`3244030 / 24000000` seconds, which is at least 0.13 s and less than 0.14 s. -/
theorem watchdog_timeout :
    neogeo_arcade_watchdog_time
      = attotime.from_ticks 3244030 neogeo_clock.NEOGEO_MASTER_CLOCK
    ∧ NEOGEO_MASTER_CLOCK_HZ = 24000000
    ∧ ∃ t, master_clock_seconds neogeo_arcade_watchdog_time = some t
        ∧ t = 3244030 / 24000000
        ∧ (13 : ℚ) / 100 ≤ t ∧ t < (14 : ℚ) / 100 := by
  refine ⟨rfl, rfl, 3244030 / 24000000, ?_, rfl, ?_, ?_⟩
  · simp [master_clock_seconds, neogeo_arcade_watchdog_time, NEOGEO_MASTER_CLOCK_HZ]
  · norm_num
  · norm_num

/-! ## LEDs -/

theorem output_latch_fields (s : neogeo_state) (d : Nat) :
    (set_output_latch d s).m_el_value
      = (if s.m_output_latch &&& 0x08 ≠ 0 ∧ d &&& 0x08 = 0 then
          (16 - (s.m_output_data &&& 0x0f)) % 2 ^ 8 else s.m_el_value)
    ∧ (set_output_latch d s).m_led1_value
      = (if s.m_output_latch &&& 0x10 ≠ 0 ∧ d &&& 0x10 = 0 then
          0xff ^^^ (s.m_output_data % 2 ^ 8) else s.m_led1_value)
    ∧ (set_output_latch d s).m_led2_value
      = (if s.m_output_latch &&& 0x20 ≠ 0 ∧ d &&& 0x20 = 0 then
          0xff ^^^ (s.m_output_data % 2 ^ 8) else s.m_led2_value)
    ∧ (set_output_latch d s).m_output_latch = d % 2 ^ 8
    ∧ (set_output_latch d s).m_output_data = s.m_output_data := by
  have f3 := falling_bit s.m_output_latch d 3 (by norm_num)
  have f4 := falling_bit s.m_output_latch d 4 (by norm_num)
  have f5 := falling_bit s.m_output_latch d 5 (by norm_num)
  norm_num at f3 f4 f5
  unfold set_output_latch
  simp only [set_outputs, emit]
  by_cases h3 : s.m_output_latch &&& 0x08 ≠ 0 ∧ d &&& 0x08 = 0 <;>
  by_cases h4 : s.m_output_latch &&& 0x10 ≠ 0 ∧ d &&& 0x10 = 0 <;>
  by_cases h5 : s.m_output_latch &&& 0x20 ≠ 0 ∧ d &&& 0x20 = 0 <;>
  simp [f3, f4, f5, h3, h4, h5]

/-- C14: the LEDs are set on the falling edge of the output latch.  For every
previous latch value, new byte `d` and output data byte `o`, `set_output_latch d`
sets the EL value to `16 - (o & 0x0f)` exactly when bit 3 is set in the previous
latch and clear in `d`, sets LED1 to the 8-bit complement of `o` exactly when
bit 4 falls and LED2 exactly when bit 5 falls, leaves each value unchanged when
its bit does not fall, and always stores `d` as the new latch value;
`set_output_data` changes only the output data byte. -/
theorem leds_on_falling_edge (s : neogeo_state) (d : Nat)
    (hd : d < 2 ^ 8) (ho : s.m_output_data < 2 ^ 8) :
    (set_output_latch d s).m_el_value
      = (if s.m_output_latch &&& 0x08 ≠ 0 ∧ d &&& 0x08 = 0 then
          16 - (s.m_output_data &&& 0x0f) else s.m_el_value)
    ∧ (set_output_latch d s).m_led1_value
      = (if s.m_output_latch &&& 0x10 ≠ 0 ∧ d &&& 0x10 = 0 then
          0xff ^^^ s.m_output_data else s.m_led1_value)
    ∧ (set_output_latch d s).m_led2_value
      = (if s.m_output_latch &&& 0x20 ≠ 0 ∧ d &&& 0x20 = 0 then
          0xff ^^^ s.m_output_data else s.m_led2_value)
    ∧ (set_output_latch d s).m_output_latch = d
    ∧ (set_output_latch d s).m_output_data = s.m_output_data
    ∧ set_output_data d s = { s with m_output_data := d } := by
  obtain ⟨h1, h2, h3, h4, h5⟩ := output_latch_fields s d
  have he : (16 - (s.m_output_data &&& 0x0f)) % 2 ^ 8 = 16 - (s.m_output_data &&& 0x0f) :=
    Nat.mod_eq_of_lt (by omega)
  rw [he] at h1
  rw [Nat.mod_eq_of_lt ho] at h2 h3
  rw [Nat.mod_eq_of_lt hd] at h4
  refine ⟨h1, h2, h3, h4, h5, ?_⟩
  unfold set_output_data
  rw [Nat.mod_eq_of_lt hd]

theorem leds_on_falling_edge_witness :
    ((0x07 : Nat) < 2 ^ 8 ∧ latch_high.m_output_data < 2 ^ 8)
    ∧ (set_output_latch 0x07 latch_high).m_el_value = 11
    ∧ (set_output_latch 0x07 latch_high).m_led1_value = 0x5a
    ∧ (set_output_latch 0x07 latch_high).m_output_latch = 0x07 :=
  ⟨⟨by norm_num, by decide⟩,
    (leds_on_falling_edge latch_high 0x07 (by norm_num) (by decide)).1,
    (leds_on_falling_edge latch_high 0x07 (by norm_num) (by decide)).2.1,
    (leds_on_falling_edge latch_high 0x07 (by norm_num) (by decide)).2.2.2.1⟩

/-! ## Audio CPU banking -/

/-- C15: audio CPU bank switching is decoded from the read port address.  For
every 16-bit port offset `o`, `audio_cpu_bank_select_r` selects window `o & 3`
(0 = F000, 1 = E000, 2 = C000, 3 = 8000), sets that window's bank entry to
`o >> 8`, which lies in `0..255`, leaves the entries of the other windows
unchanged, and returns 0. -/
theorem bank_select_decoded (s : neogeo_state) (o : Nat) (ho : o < 2 ^ 16) :
    (audio_cpu_bank_select_r o s).1 = 0
    ∧ (∀ r, (audio_cpu_bank_select_r o s).2.m_bank_audio_cart_entry r
        = if r = o &&& 3 then o >>> 8 else s.m_bank_audio_cart_entry r)
    ∧ o >>> 8 < 256
    ∧ o &&& 3 < 4
    ∧ (audio_window_base 0 = 0xf000 ∧ audio_window_base 1 = 0xe000
        ∧ audio_window_base 2 = 0xc000 ∧ audio_window_base 3 = 0x8000)
    ∧ (audio_cpu_bank_select_r o s).2.m_bank_audio_cart_config = s.m_bank_audio_cart_config
    ∧ (audio_cpu_bank_select_r o s).2.calls = s.calls := by
  refine ⟨rfl, fun r => rfl, ?_, ?_, ⟨rfl, rfl, rfl, rfl⟩, rfl, rfl⟩
  · rw [Nat.shiftRight_eq_div_pow]
    omega
  · exact lt_of_le_of_lt Nat.and_le_right (by norm_num)

theorem bank_select_decoded_witness :
    (0x1e08 : Nat) < 2 ^ 16
    ∧ (audio_cpu_bank_select_r 0x1e08 running).2.m_bank_audio_cart_entry 0 = 0x1e
    ∧ (audio_cpu_bank_select_r 0x020b running).2.m_bank_audio_cart_entry 3 = 0x02 :=
  ⟨by norm_num,
    ((bank_select_decoded running 0x1e08 (by norm_num)).2.1 0).trans (by decide),
    ((bank_select_decoded running 0x020b (by norm_num)).2.1 3).trans (by decide)⟩

theorem configure_banks_config (S r : Nat) (L : List Nat) (s : neogeo_state) (r' b' : Nat) :
    (L.foldl (fun s bank => configure_cart_entry S r bank s) s).m_bank_audio_cart_config r' b'
      = if r' = r ∧ b' ∈ L then some (bank_address S r b')
        else s.m_bank_audio_cart_config r' b' := by
  induction L generalizing s with
  | nil => simp
  | cons b L ih =>
    rw [List.foldl_cons, ih]
    by_cases hr : r' = r
    · by_cases hL : b' ∈ L
      · simp [hr, hL]
      · by_cases hb : b' = b
        · simp [hr, hb, configure_cart_entry]
        · simp [hr, hL, hb, configure_cart_entry]
    · simp [hr, configure_cart_entry]

theorem configure_regions_config (S : Nat) (R : List Nat) (s : neogeo_state) (r' b' : Nat) :
    (R.foldl (fun s region =>
        bank_order.foldl (fun s bank => configure_cart_entry S region bank s) s)
      s).m_bank_audio_cart_config r' b'
      = if r' ∈ R ∧ b' ∈ bank_order then some (bank_address S r' b')
        else s.m_bank_audio_cart_config r' b' := by
  induction R generalizing s with
  | nil => simp
  | cons r R ih =>
    rw [List.foldl_cons, ih, configure_banks_config]
    by_cases hR : r' ∈ R
    · by_cases hb : b' ∈ bank_order
      · simp [hR, hb]
      · simp [hb]
    · by_cases hr : r' = r
      · subst hr
        simp [hR]
      · simp [hR, hr]

theorem mem_bank_order (b : Nat) : b ∈ bank_order ↔ b < 0x100 := by
  simp [bank_order]

theorem set_cart_entry_config (r e : Nat) (s : neogeo_state) :
    (set_cart_entry r e s).m_bank_audio_cart_config = s.m_bank_audio_cart_config := rfl

theorem banking_init_config (S : Nat) (bios : Bool) (e : Int) (s : neogeo_state)
    (hty : s.m_type ≠ neogeo_type.NEOGEO_CD) (r b : Nat) (hr : r < 4) (hb : b < 0x100) :
    (neogeo_audio_cpu_banking_init S bios e s).m_bank_audio_cart_config r b
      = some (bank_address S r b) := by
  have hr4 : r ∈ List.range 4 := List.mem_range.mpr hr
  have hbo : b ∈ bank_order := (mem_bank_order b).mpr hb
  unfold neogeo_audio_cpu_banking_init
  rw [if_neg hty]
  simp only [set_cart_entry_config]
  rw [configure_regions_config, if_pos ⟨hr4, hbo⟩]

theorem banking_init_entry (S : Nat) (bios : Bool) (e : Int) (s : neogeo_state)
    (hty : s.m_type ≠ neogeo_type.NEOGEO_CD) :
    (neogeo_audio_cpu_banking_init S bios e s).m_bank_audio_cart_entry 0 = 0x1e
    ∧ (neogeo_audio_cpu_banking_init S bios e s).m_bank_audio_cart_entry 1 = 0x0e
    ∧ (neogeo_audio_cpu_banking_init S bios e s).m_bank_audio_cart_entry 2 = 0x06
    ∧ (neogeo_audio_cpu_banking_init S bios e s).m_bank_audio_cart_entry 3 = 0x02 := by
  unfold neogeo_audio_cpu_banking_init
  rw [if_neg hty]
  exact ⟨rfl, rfl, rfl, rfl⟩

theorem bank_address_linear (S x r b : Nat) (hd : 0x10000 ∣ S - 0x10000)
    (hnz : S - 0x10000 ≠ 0) (hx : x < 2 ^ 16) (hs : b <<< (11 + r) = x) :
    bank_address S r b = 0x10000 + x := by
  obtain ⟨k, hk⟩ := hd
  have hA : ((S % 2 ^ 32 + 2 ^ 32 - 0x10000 - 1) % 2 ^ 32) % 2 ^ 16 = 2 ^ 16 - 1 := by
    omega
  unfold bank_address address_mask
  rw [hs, and_full_low_mask x _ hx hA]
  omega

/-- C16: the initial audio bank settings make non-banked games work.  After
`neogeo_audio_cpu_banking_init` on an audiocpu region of size `S`, where
`S - 0x10000` is a non-zero multiple of `0x10000`, the initially selected
entries are `0x1e`, `0x0e`, `0x06`, `0x02` for the F000, E000, C000 and 8000
windows and they point at region offsets `0x1F000`, `0x1E000`, `0x1C000` and
`0x18000`: each window maps region offset `0x10000` plus its own Z80 base
address. -/
theorem initial_banks_linear (S : Nat) (bios : Bool) (e : Int) (s : neogeo_state)
    (hty : s.m_type ≠ neogeo_type.NEOGEO_CD)
    (hd : 0x10000 ∣ S - 0x10000) (hnz : S - 0x10000 ≠ 0) :
    ((neogeo_audio_cpu_banking_init S bios e s).m_bank_audio_cart_entry 0 = 0x1e
      ∧ (neogeo_audio_cpu_banking_init S bios e s).m_bank_audio_cart_entry 1 = 0x0e
      ∧ (neogeo_audio_cpu_banking_init S bios e s).m_bank_audio_cart_entry 2 = 0x06
      ∧ (neogeo_audio_cpu_banking_init S bios e s).m_bank_audio_cart_entry 3 = 0x02)
    ∧ ((neogeo_audio_cpu_banking_init S bios e s).m_bank_audio_cart_config 0 0x1e
          = some 0x1f000
      ∧ (neogeo_audio_cpu_banking_init S bios e s).m_bank_audio_cart_config 1 0x0e
          = some 0x1e000
      ∧ (neogeo_audio_cpu_banking_init S bios e s).m_bank_audio_cart_config 2 0x06
          = some 0x1c000
      ∧ (neogeo_audio_cpu_banking_init S bios e s).m_bank_audio_cart_config 3 0x02
          = some 0x18000)
    ∧ (∀ r, r < 4 →
        (neogeo_audio_cpu_banking_init S bios e s).m_bank_audio_cart_config r
          ((neogeo_audio_cpu_banking_init S bios e s).m_bank_audio_cart_entry r)
          = some (0x10000 + audio_window_base r)) := by
  obtain ⟨e0, e1, e2, e3⟩ := banking_init_entry S bios e s hty
  have c0 : (neogeo_audio_cpu_banking_init S bios e s).m_bank_audio_cart_config 0 0x1e
      = some 0x1f000 := by
    rw [banking_init_config S bios e s hty 0 0x1e (by norm_num) (by norm_num),
      bank_address_linear S 0xf000 0 0x1e hd hnz (by norm_num) (by decide)]
  have c1 : (neogeo_audio_cpu_banking_init S bios e s).m_bank_audio_cart_config 1 0x0e
      = some 0x1e000 := by
    rw [banking_init_config S bios e s hty 1 0x0e (by norm_num) (by norm_num),
      bank_address_linear S 0xe000 1 0x0e hd hnz (by norm_num) (by decide)]
  have c2 : (neogeo_audio_cpu_banking_init S bios e s).m_bank_audio_cart_config 2 0x06
      = some 0x1c000 := by
    rw [banking_init_config S bios e s hty 2 0x06 (by norm_num) (by norm_num),
      bank_address_linear S 0xc000 2 0x06 hd hnz (by norm_num) (by decide)]
  have c3 : (neogeo_audio_cpu_banking_init S bios e s).m_bank_audio_cart_config 3 0x02
      = some 0x18000 := by
    rw [banking_init_config S bios e s hty 3 0x02 (by norm_num) (by norm_num),
      bank_address_linear S 0x8000 3 0x02 hd hnz (by norm_num) (by decide)]
  refine ⟨⟨e0, e1, e2, e3⟩, ⟨c0, c1, c2, c3⟩, ?_⟩
  intro r hr
  match r, hr with
  | 0, _ => rw [e0, c0]; rfl
  | 1, _ => rw [e1, c1]; rfl
  | 2, _ => rw [e2, c2]; rfl
  | 3, _ => rw [e3, c3]; rfl

theorem initial_banks_linear_witness :
    (power_on.m_type ≠ neogeo_type.NEOGEO_CD
      ∧ 0x10000 ∣ 0x30000 - 0x10000 ∧ 0x30000 - 0x10000 ≠ 0)
    ∧ (neogeo_audio_cpu_banking_init 0x30000 true 1 power_on).m_bank_audio_cart_config 0 0x1e
        = some 0x1f000
    ∧ (neogeo_audio_cpu_banking_init 0x30000 true 1 power_on).m_bank_audio_cart_config 3 0x02
        = some 0x18000 :=
  ⟨⟨by decide, by norm_num, by norm_num⟩,
    (initial_banks_linear 0x30000 true 1 power_on (by decide) (by norm_num)
      (by norm_num)).2.1.1,
    (initial_banks_linear 0x30000 true 1 power_on (by decide) (by norm_num)
      (by norm_num)).2.1.2.2.2⟩

end neogeo_state

/-! ## Namco 50XX -/

/-- C17: Namco 50XX read/write latch (pin R/W: 1 = the chip reads a command,
0 = the chip writes an answer).  After the latch callback of a main-CPU write of
byte `d` the latched command equals `d` and port R2 reads 1; after the
read-request callback port R2 reads 0 and the latched command is unchanged;
port R2 only ever returns 0 or 1; neither callback changes the answer register
`portO`. -/
theorem namco_50xx_rw_latch (d : Nat) (state : namco_50xx_state) (hd : d < 2 ^ 8) :
    (namco_50xx_latch_callback d state).latched_cmd = d
    ∧ namco_50xx_R2_r (namco_50xx_latch_callback d state) = 1
    ∧ namco_50xx_R2_r (namco_50xx_readrequest_callback state) = 0
    ∧ (namco_50xx_readrequest_callback state).latched_cmd = state.latched_cmd
    ∧ (namco_50xx_R2_r state = 0 ∨ namco_50xx_R2_r state = 1)
    ∧ (namco_50xx_latch_callback d state).portO = state.portO
    ∧ (namco_50xx_readrequest_callback state).portO = state.portO := by
  refine ⟨Nat.mod_eq_of_lt hd, ?_, ?_, rfl, ?_, rfl, rfl⟩
  · simp [namco_50xx_R2_r, namco_50xx_latch_callback]
  · simp [namco_50xx_R2_r, namco_50xx_readrequest_callback]
  unfold namco_50xx_R2_r
  rw [Nat.and_one_is_mod]
  omega

theorem namco_50xx_rw_latch_witness :
    (0xb7 : Nat) < 2 ^ 8
    ∧ (namco_50xx_latch_callback 0xb7 ⟨0, 0, 0x42⟩).latched_cmd = 0xb7
    ∧ namco_50xx_R2_r (namco_50xx_latch_callback 0xb7 ⟨0, 0, 0x42⟩) = 1 :=
  ⟨by norm_num, (namco_50xx_rw_latch 0xb7 ⟨0, 0, 0x42⟩ (by norm_num)).1,
    (namco_50xx_rw_latch 0xb7 ⟨0, 0, 0x42⟩ (by norm_num)).2.1⟩

/-- C18: the Namco 50XX bridge delivers the 8-bit command to the MCU losslessly
as two nibbles.  For every latched command byte `d`, port K returns `d >> 4`
(CMD4-7), port R0 returns `d & 0x0f` (CMD0-3), both values are below 16, and
`(K << 4) | R0 = d`. -/
theorem namco_50xx_cmd_nibbles (state : namco_50xx_state) (hd : state.latched_cmd < 2 ^ 8) :
    namco_50xx_K_r state = state.latched_cmd >>> 4
    ∧ namco_50xx_R0_r state = state.latched_cmd &&& 0x0f
    ∧ namco_50xx_K_r state < 16
    ∧ namco_50xx_R0_r state < 16
    ∧ (namco_50xx_K_r state <<< 4) ||| namco_50xx_R0_r state = state.latched_cmd := by
  refine ⟨rfl, rfl, ?_, ?_, nibbles_recompose state.latched_cmd⟩
  · unfold namco_50xx_K_r
    rw [Nat.shiftRight_eq_div_pow]
    omega
  · exact lt_of_le_of_lt Nat.and_le_right (by norm_num)

theorem namco_50xx_cmd_nibbles_witness :
    (namco_50xx_latch_callback 0xb7 ⟨0, 0, 0x42⟩).latched_cmd < 2 ^ 8
    ∧ namco_50xx_K_r (namco_50xx_latch_callback 0xb7 ⟨0, 0, 0x42⟩) = 0xb
    ∧ namco_50xx_R0_r (namco_50xx_latch_callback 0xb7 ⟨0, 0, 0x42⟩) = 0x7 :=
  ⟨by decide,
    (namco_50xx_cmd_nibbles (namco_50xx_latch_callback 0xb7 ⟨0, 0, 0x42⟩) (by decide)).1,
    (namco_50xx_cmd_nibbles (namco_50xx_latch_callback 0xb7 ⟨0, 0, 0x42⟩) (by decide)).2.1⟩

/-! ## The Simpsons: sync rates -/

namespace simpsons_state

theorem round_of_bounds (x : ℚ) (z : ℤ) (h1 : (z : ℚ) - 1 / 2 ≤ x) (h2 : x < (z : ℚ) + 1 / 2) :
    round x = z := by
  rw [round_eq, Int.floor_eq_iff]
  constructor
  · linarith
  · linarith

theorem refresh_rate_value :
    refresh_rate_hz simpsons_screen = 8000000 / (528 * 256) := by
  simp only [refresh_rate_hz, simpsons_screen]
  norm_num

theorem line_rate_value : line_rate_hz simpsons_screen = 8000000 / 528 := by
  simp only [line_rate_hz, simpsons_screen]
  norm_num

/-- C19: sync measurements, vertical.  The screen parameters configured for The
Simpsons (pixel clock 24 MHz / 3, 528 pixel clocks per line, 256 lines per
frame) give a refresh rate of `8000000 / (528 * 256)` Hz, which is the
documented VSync of 59.1856 Hz when rounded to four decimal places. -/
theorem vsync_matches_measurement :
    simpsons_screen.pixclock = 8000000
    ∧ simpsons_screen.htotal = 528
    ∧ simpsons_screen.vtotal = 256
    ∧ refresh_rate_hz simpsons_screen = 8000000 / (528 * 256)
    ∧ round (refresh_rate_hz simpsons_screen * 10000) = documented_vsync_e4
    ∧ documented_vsync_e4 = 591856 := by
  refine ⟨by norm_num [simpsons_screen], rfl, rfl, refresh_rate_value, ?_, rfl⟩
  rw [refresh_rate_value]
  apply round_of_bounds
  · norm_num [documented_vsync_e4]
  · norm_num [documented_vsync_e4]

/-- C20, as stated, fails: the configured line rate `8000000 / 528` Hz, taken in
kHz and rounded to four decimal places, is not the documented 15.1566 kHz. -/
theorem hsync_differs_from_measurement :
    ¬ (round (line_rate_hz simpsons_screen / 1000 * 10000) = documented_hsync_e4) := by
  have h : round (line_rate_hz simpsons_screen / 1000 * 10000) = 151515 := by
    rw [line_rate_value]
    apply round_of_bounds
    · norm_num
    · norm_num
  rw [h]
  decide

/-- C20, amended: sync measurements, horizontal.  The screen parameters
configured for The Simpsons (pixel clock 24 MHz / 3, 528 pixel clocks per line)
give a line rate of `8000000 / 528` Hz, which is 15.1515 kHz when rounded to
four decimal places of a kHz, 0.0051 kHz below the documented HSync of
15.1566 kHz. -/
theorem hsync_configured_rate :
    simpsons_screen.pixclock = 8000000
    ∧ simpsons_screen.htotal = 528
    ∧ line_rate_hz simpsons_screen = 8000000 / 528
    ∧ round (line_rate_hz simpsons_screen / 1000 * 10000) = 151515
    ∧ documented_hsync_e4 = 151566
    ∧ documented_hsync_e4 - round (line_rate_hz simpsons_screen / 1000 * 10000) = 51 := by
  have h : round (line_rate_hz simpsons_screen / 1000 * 10000) = 151515 := by
    rw [line_rate_value]
    apply round_of_bounds
    · norm_num
    · norm_num
  refine ⟨by norm_num [simpsons_screen], rfl, line_rate_value, h, rfl, ?_⟩
  rw [h]
  decide

end simpsons_state

/-! ## Neo-Geo: auto-repeat, line mapping, command handshake -/

namespace neogeo_state

/-- C21: auto-repeat mode.  When the display-position timer expires, the
callback re-arms the timer with a period of `display_counter + 1` pixel clocks
exactly when control bit `0x80` is set, whether or not the interrupt enable bit
`0x10` is set; with bit `0x80` clear the callback makes no call on the timer. -/
theorem auto_repeat_rearm (s : neogeo_state) (hc : s.m_display_counter < 2 ^ 32) :
    (display_position_interrupt_callback s).calls
      = s.calls
        ++ (if s.m_display_position_interrupt_control &&& 0x10 ≠ 0 then
              [device_call.maincpu_set_input_line 3 (line_of s.m_irq3_pending),
               device_call.maincpu_set_input_line s.m_raster_level line_state.ASSERT_LINE,
               device_call.maincpu_set_input_line s.m_vblank_level
                 (line_of s.m_vblank_interrupt_pending)]
            else [])
        ++ (if s.m_display_position_interrupt_control &&& 0x80 ≠ 0 then
              [device_call.timer_adjust neogeo_timer.m_display_position_interrupt_timer
                (attotime.from_ticks (s.m_display_counter + 1)
                  neogeo_clock.NEOGEO_PIXEL_CLOCK)]
            else []) := by
  unfold display_position_interrupt_callback
  simp only [IRQ2CTRL_ENABLE, IRQ2CTRL_AUTOLOAD_REPEAT]
  by_cases h1 : s.m_display_position_interrupt_control &&& 0x10 = 0 <;>
  by_cases h2 : s.m_display_position_interrupt_control &&& 0x80 = 0 <;>
  simp [h1, h2, update_interrupts, emit, adjust_display_position_interrupt_timer,
    display_position_period_ticks, line_of]
  all_goals omega

theorem auto_repeat_rearm_witness :
    running.m_display_counter < 2 ^ 32
    ∧ (display_position_interrupt_callback
        { running with m_display_position_interrupt_control := 0x80 }).calls
      = [device_call.timer_adjust neogeo_timer.m_display_position_interrupt_timer
          (attotime.from_ticks 0x100000000 neogeo_clock.NEOGEO_PIXEL_CLOCK)] :=
  ⟨by decide,
    auto_repeat_rearm { running with m_display_position_interrupt_control := 0x80 }
      (by decide)⟩

theorem line_of_iff (f : Nat) :
    (line_of f = line_state.ASSERT_LINE ↔ f ≠ 0)
    ∧ (line_of f = line_state.CLEAR_LINE ↔ f = 0) := by
  unfold line_of
  by_cases h : f = 0 <;> simp [h]

/-- C22: interrupt line mapping for MVS/AES.  With the levels set by
`machine_start` (raster 2, vblank 1), `update_interrupts` drives main-CPU line 3
asserted exactly when IRQ3 is pending, line 2 exactly when the display-position
interrupt is pending and line 1 exactly when the vblank interrupt is pending,
each line being cleared otherwise; the three lines are distinct, so each line
shows its own flag. -/
theorem interrupt_line_mapping (s : neogeo_state)
    (hr : s.m_raster_level = 2) (hv : s.m_vblank_level = 1) :
    maincpu_line 3 (update_interrupts s) = some (line_of s.m_irq3_pending)
    ∧ maincpu_line 2 (update_interrupts s)
        = some (line_of s.m_display_position_interrupt_pending)
    ∧ maincpu_line 1 (update_interrupts s) = some (line_of s.m_vblank_interrupt_pending)
    ∧ (∀ f, (line_of f = line_state.ASSERT_LINE ↔ f ≠ 0)
        ∧ (line_of f = line_state.CLEAR_LINE ↔ f = 0))
    ∧ (∀ n bios s0, (machine_start n bios s0).m_raster_level = 2
        ∧ (machine_start n bios s0).m_vblank_level = 1) := by
  refine ⟨?_, ?_, ?_, line_of_iff, fun n bios s0 => ⟨rfl, rfl⟩⟩
  · simp [maincpu_line, update_interrupts_calls, hr, hv]
  · simp [maincpu_line, update_interrupts_calls, hr, hv]
  · simp [maincpu_line, update_interrupts_calls, hr, hv]

theorem interrupt_line_mapping_witness :
    ((machine_start 0x20000 true power_on).m_raster_level = 2
      ∧ (machine_start 0x20000 true power_on).m_vblank_level = 1)
    ∧ maincpu_line 3 (update_interrupts (machine_start 0x20000 true power_on))
        = some (line_of (machine_start 0x20000 true power_on).m_irq3_pending)
    ∧ maincpu_line 2 (update_interrupts (machine_start 0x20000 true power_on))
        = some (line_of
            (machine_start 0x20000 true power_on).m_display_position_interrupt_pending) :=
  ⟨⟨rfl, rfl⟩,
    (interrupt_line_mapping (machine_start 0x20000 true power_on) rfl rfl).1,
    (interrupt_line_mapping (machine_start 0x20000 true power_on) rfl rfl).2.1⟩

/-- C23: inter-CPU command handshake.  For every byte `d`, `audio_command_w d`
stores `d` in the sound latch and sets the NMI-pending flag; a following
`audio_command_r` returns `d` and clears the flag; so with NMI enabled the audio
NMI line is asserted between the write and the read and cleared after the read;
neither operation changes the NMI-enabled flag. -/
theorem command_handshake (s : neogeo_state) (d : Nat) (hd : d < 2 ^ 8) :
    (audio_command_w d s).m_soundlatch = d
    ∧ (audio_command_w d s).m_audio_cpu_nmi_pending = true
    ∧ (audio_command_r (audio_command_w d s)).1 = d
    ∧ (audio_command_r (audio_command_w d s)).2.m_audio_cpu_nmi_pending = false
    ∧ audiocpu_nmi_line (audio_command_w d s)
        = some (if s.m_audio_cpu_nmi_enabled then line_state.ASSERT_LINE
                else line_state.CLEAR_LINE)
    ∧ audiocpu_nmi_line (audio_command_r (audio_command_w d s)).2
        = some line_state.CLEAR_LINE
    ∧ (audio_command_w d s).m_audio_cpu_nmi_enabled = s.m_audio_cpu_nmi_enabled
    ∧ (audio_command_r s).2.m_audio_cpu_nmi_enabled = s.m_audio_cpu_nmi_enabled := by
  refine ⟨Nat.mod_eq_of_lt hd, rfl, Nat.mod_eq_of_lt hd, rfl, ?_, ?_, rfl, rfl⟩
  · simp [audiocpu_nmi_line, audio_command_w, audio_cpu_check_nmi, emit]
  · simp [audiocpu_nmi_line, audio_command_r, audio_cpu_check_nmi, emit]

theorem command_handshake_witness :
    (0x42 : Nat) < 2 ^ 8
    ∧ (audio_command_r (audio_command_w 0x42 running)).1 = 0x42
    ∧ audiocpu_nmi_line (audio_command_w 0x42 running) = some line_state.ASSERT_LINE
    ∧ audiocpu_nmi_line (audio_command_r (audio_command_w 0x42 running)).2
        = some line_state.CLEAR_LINE :=
  ⟨by norm_num,
    (command_handshake running 0x42 (by norm_num)).2.2.1,
    (command_handshake running 0x42 (by norm_num)).2.2.2.2.1,
    (command_handshake running 0x42 (by norm_num)).2.2.2.2.2.1⟩

/-! ## Unmapped reads -/

theorem bus_reads_append_read (calls : List device_call) (a : Nat) :
    bus_reads (calls ++ [device_call.space_read_word a]) = bus_reads calls + 1 := by
  simp [bus_reads, List.countP_append]

/-- C24: unmapped reads prevent recursion.  Called while the recursion guard is
set, `neogeo_unmapped_r` returns `0xffff`, records no bus read and leaves the
guard set.  Called while the guard is clear, it returns the word read at the
current program counter, which is `0xffff` when that read itself lands on
unmapped memory, it issues exactly one bus read, and the guard is clear again
on return; two levels of handler nesting always suffice. -/
theorem unmapped_read_guard (fuel : Nat) (space : Nat → Option Nat) (pc : Nat)
    (s : neogeo_state) :
    neogeo_unmapped_r (fuel + 1) space pc { s with m_recurse := true }
      = some (0xffff, { s with m_recurse := true })
    ∧ neogeo_unmapped_r (fuel + 2) space pc { s with m_recurse := false }
      = some ((match space pc with
                | some w => w % 2 ^ 16
                | none => 0xffff),
              { s with
                m_recurse := false
                calls := s.calls ++ [device_call.space_read_word pc] })
    ∧ bus_reads (s.calls ++ [device_call.space_read_word pc]) = bus_reads s.calls + 1
    ∧ neogeo_unmapped_r 0 space pc s = none := by
  refine ⟨?_, ?_, bus_reads_append_read s.calls pc, rfl⟩
  · simp [neogeo_unmapped_r]
  · cases h : space pc with
    | none => simp [neogeo_unmapped_r, h, emit]
    | some w => simp [neogeo_unmapped_r, h, emit]

end neogeo_state

/-! ## Namco 50XX: answer register -/

theorem and_or_split (a b k : Nat) : (a ||| b) &&& k = (a &&& k) ||| (b &&& k) := by
  rw [Nat.and_comm (a ||| b) k, Nat.and_or_distrib_left, Nat.and_comm k a, Nat.and_comm k b]

theorem namco_50xx_O_w_portO (data : Nat) (state : namco_50xx_state) (hd : data < 2 ^ 8) :
    (namco_50xx_O_w data state).portO
      = (if data &&& 0x10 ≠ 0 then (state.portO &&& 0x0f) ||| ((data &&& 0x0f) <<< 4)
         else (state.portO &&& 0xf0) ||| (data &&& 0x0f)) := by
  have h1 : data &&& 0x0f < 2 ^ 4 := lt_of_le_of_lt Nat.and_le_right (by norm_num)
  have h2 : (data &&& 0x0f) <<< 4 < 2 ^ 8 := by
    rw [Nat.shiftLeft_eq]
    omega
  have h3 : state.portO &&& 0x0f < 2 ^ 8 := lt_of_le_of_lt Nat.and_le_right (by norm_num)
  have h4 : state.portO &&& 0xf0 < 2 ^ 8 := lt_of_le_of_lt Nat.and_le_right (by norm_num)
  have h5 : data &&& 0x0f < 2 ^ 8 := by omega
  unfold namco_50xx_O_w
  simp only [Nat.mod_eq_of_lt hd]
  split
  · exact Nat.mod_eq_of_lt (Nat.or_lt_two_pow h3 h2)
  · exact Nat.mod_eq_of_lt (Nat.or_lt_two_pow h4 h5)

theorem nibble_facts :
    ∀ x, x < 16 →
      x &&& 0x10 = 0 ∧ x &&& 0x0f = x ∧ (0x10 ||| x) &&& 0x10 ≠ 0
      ∧ (0x10 ||| x) &&& 0x0f = x ∧ (x <<< 4) &&& 0xf0 = x <<< 4
      ∧ (x <<< 4) &&& 0x0f = 0 ∧ x &&& 0xf0 = 0 ∧ 0x10 ||| x < 2 ^ 8 := by
  decide

theorem namco_50xx_O_w_low_bits (data : Nat) (state : namco_50xx_state) (hd : data < 2 ^ 8) :
    namco_50xx_O_w (data &&& 0x1f) state = namco_50xx_O_w data state := by
  have hlt : data &&& 0x1f < 2 ^ 8 := lt_of_le_of_lt Nat.and_le_right (by norm_num)
  have e1 : (data &&& 0x1f) &&& 0x0f = data &&& 0x0f := by
    rw [Nat.and_assoc]
    rfl
  have e2 : (data &&& 0x1f) &&& 0x10 = data &&& 0x10 := by
    rw [Nat.and_assoc]
    rfl
  unfold namco_50xx_O_w
  simp only [Nat.mod_eq_of_lt hd, Nat.mod_eq_of_lt hlt, e1, e2]

/-- C25: the Namco 50XX answer byte is assembled from two 4-bit MCU port-O
writes.  `namco_50xx_O_w data` replaces the high nibble of `portO` with
`data & 0x0f` when data bit 4 is set and the low nibble otherwise, keeps the
other nibble, ignores data bits 5-7 and changes neither the latched command nor
the R/W latch; hence after writing a low nibble `l` and a high nibble `h` in
either order `portO = (h << 4) | l`; and `namco_50xx_read` returns the `portO`
value held before its read request, which modifies no device state when issued
and leaves `portO` alone when its callback runs. -/
theorem namco_50xx_answer_nibbles (state : namco_50xx_state) (device : namco_50xx_device)
    (data l h : Nat) (hd : data < 2 ^ 8) (hl : l < 16) (hh : h < 16) :
    (namco_50xx_O_w data state).portO
      = (if data &&& 0x10 ≠ 0 then (state.portO &&& 0x0f) ||| ((data &&& 0x0f) <<< 4)
         else (state.portO &&& 0xf0) ||| (data &&& 0x0f))
    ∧ namco_50xx_O_w (data &&& 0x1f) state = namco_50xx_O_w data state
    ∧ (namco_50xx_O_w data state).latched_cmd = state.latched_cmd
    ∧ (namco_50xx_O_w data state).latched_rw = state.latched_rw
    ∧ (namco_50xx_O_w (0x10 ||| h) (namco_50xx_O_w l state)).portO = (h <<< 4) ||| l
    ∧ (namco_50xx_O_w l (namco_50xx_O_w (0x10 ||| h) state)).portO = (h <<< 4) ||| l
    ∧ (namco_50xx_read device).1 = device.state.portO
    ∧ (namco_50xx_read device).2.state = device.state
    ∧ (namco_50xx_read device).2.calls = device.calls ++
        [namco_50xx_call.timer_call_after_resynch 0 namco_50xx_timer.readrequest_callback,
         namco_50xx_call.cpu_set_input_line 0 line_state.ASSERT_LINE,
         namco_50xx_call.timer_set_usec 21 0 namco_50xx_timer.irq_clear]
    ∧ (namco_50xx_run_timer 0 namco_50xx_timer.readrequest_callback
        (namco_50xx_read device).2).state.portO = device.state.portO := by
  obtain ⟨l1, l2, _, _, _, l6, l7, _⟩ := nibble_facts l hl
  obtain ⟨_, _, k3, k4, k5, k6, _, k8⟩ := nibble_facts h hh
  have hl8 : l < 2 ^ 8 := by omega
  refine ⟨namco_50xx_O_w_portO data state hd, namco_50xx_O_w_low_bits data state hd,
    ?_, ?_, ?_, ?_, rfl, rfl, ?_, rfl⟩
  · unfold namco_50xx_O_w
    simp only
    split <;> rfl
  · unfold namco_50xx_O_w
    simp only
    split <;> rfl
  · rw [namco_50xx_O_w_portO _ _ k8, if_pos k3, k4, namco_50xx_O_w_portO _ _ hl8,
      if_neg (by rw [l1]; simp), l2, and_or_split, Nat.and_assoc]
    have z : (0xf0 : Nat) &&& 0x0f = 0 := by decide
    rw [z, Nat.and_zero, Nat.zero_or, l2, Nat.or_comm]
  · rw [namco_50xx_O_w_portO _ _ hl8, if_neg (by rw [l1]; simp), l2,
      namco_50xx_O_w_portO _ _ k8, if_pos k3, k4, and_or_split, Nat.and_assoc]
    have z : (0x0f : Nat) &&& 0xf0 = 0 := by decide
    rw [z, Nat.and_zero, Nat.zero_or, k5]
  · simp [namco_50xx_read, namco_50xx_read_request, namco_50xx_irq_set]

theorem namco_50xx_answer_nibbles_witness :
    ((0x1b : Nat) < 2 ^ 8 ∧ (0x7 : Nat) < 16 ∧ (0xb : Nat) < 16)
    ∧ (namco_50xx_O_w (0x10 ||| 0xb) (namco_50xx_O_w 0x7 ⟨0, 0, 0x42⟩)).portO = 0xb7
    ∧ (namco_50xx_read ⟨⟨0, 1, 0x42⟩, []⟩).1 = 0x42 :=
  ⟨⟨by norm_num, by norm_num, by norm_num⟩,
    (namco_50xx_answer_nibbles ⟨0, 0, 0x42⟩ ⟨⟨0, 1, 0x42⟩, []⟩ 0x1b 0x7 0xb
      (by norm_num) (by norm_num) (by norm_num)).2.2.2.2.1,
    (namco_50xx_answer_nibbles ⟨0, 0, 0x42⟩ ⟨⟨0, 1, 0x42⟩, []⟩ 0x1b 0x7 0xb
      (by norm_num) (by norm_num) (by norm_num)).2.2.2.2.2.2.1⟩

/-! ## The Simpsons: interrupts -/

namespace simpsons_state

/-- C27: IRQ triggered by the 052109, FIRQ by the sprite hardware.  On each
vblank `simpsons_irq` performs the sprite DMA and schedules the DMA-end timer
30 microseconds later exactly when the K053246 interrupt enable is set, and
holds the main CPU IRQ line exactly when the K052109 interrupt enable is set,
the two conditions being independent; when the DMA-end timer fires, the main
CPU FIRQ line is held exactly when the FIRQ-enabled flag is set at that
moment. -/
theorem irq_and_firq_sources (s : simpsons_state) :
    (simpsons_irq s).calls
      = s.calls
        ++ (if s.k053246_is_irq_enabled then
              [simpsons_call.timer_set_usec 30 simpsons_timer.TIMER_DMAEND] else [])
        ++ (if s.k052109_is_irq_enabled then
              [simpsons_call.maincpu_hold_line konami_line.KONAMI_IRQ_LINE] else [])
    ∧ (simpsons_irq s).k053247_ram
      = (if s.k053246_is_irq_enabled then (simpsons_objdma s).k053247_ram
         else s.k053247_ram)
    ∧ (simpsons_irq s).m_spriteram = s.m_spriteram
    ∧ device_timer simpsons_timer.TIMER_DMAEND s
      = some { s with calls := s.calls ++
          (if s.m_firq_enabled ≠ 0 then
            [simpsons_call.maincpu_hold_line konami_line.KONAMI_FIRQ_LINE] else []) } := by
  refine ⟨?_, ?_, ?_, ?_⟩
  · unfold simpsons_irq
    cases h1 : s.k053246_is_irq_enabled <;> cases h2 : s.k052109_is_irq_enabled <;>
      simp [h1, h2, simpsons_objdma]
  · unfold simpsons_irq
    cases h1 : s.k053246_is_irq_enabled <;> cases h2 : s.k052109_is_irq_enabled <;>
      simp [h1, h2, simpsons_objdma]
  · unfold simpsons_irq
    cases h1 : s.k053246_is_irq_enabled <;> cases h2 : s.k052109_is_irq_enabled <;>
      simp [h1, h2, simpsons_objdma]
  · obtain ⟨sr, kr, fe, e1, e2, cs⟩ := s
    unfold device_timer
    by_cases h : fe = 0
    · subst h
      simp
    · simp [h]

end simpsons_state

/-! ## Neo-Geo: LED table index and audio bank bounds -/

theorem two_pow_mask_and (n : Nat) : (2 ^ n - 1) &&& 0x3ffff = 2 ^ (min n 18) - 1 := by
  have h3 : (0x3ffff : Nat) = 2 ^ 18 - 1 := by norm_num
  apply Nat.eq_of_testBit_eq
  intro i
  rw [Nat.testBit_and, h3, Nat.testBit_two_pow_sub_one, Nat.testBit_two_pow_sub_one,
    Nat.testBit_two_pow_sub_one]
  by_cases h1 : i < n <;> by_cases h2 : i < 18 <;> simp [h1, h2]

theorem shifted_mask_bound (b k m : Nat) (hkm : k ≤ m) :
    ((b <<< k) &&& (2 ^ m - 1)) + 2 ^ k ≤ 2 ^ m := by
  obtain ⟨d, rfl⟩ := Nat.exists_eq_add_of_le hkm
  have hq : 0 < 2 ^ d := Nat.two_pow_pos d
  have hmod : b % 2 ^ d + 1 ≤ 2 ^ d := Nat.mod_lt b hq
  rw [Nat.and_pow_two_sub_one_eq_mod, Nat.shiftLeft_eq, Nat.pow_add, Nat.mul_comm b (2 ^ k),
    Nat.mul_mod_mul_left]
  calc 2 ^ k * (b % 2 ^ d) + 2 ^ k = 2 ^ k * (b % 2 ^ d + 1) := by ring
    _ ≤ 2 ^ k * 2 ^ d := Nat.mul_le_mul_left _ hmod

namespace neogeo_state

/-- C28 fails on the code: starting from all-zero EL and LED values, the writes
latch `0x08`, data `0x00`, latch `0x00` make bit 3 of the latch fall while the
low nibble of the output data is 0, so the EL value becomes `16 - 0 = 16`, which
`set_outputs` uses as an index into the 16-entry `led_map`. -/
theorem led_index_out_of_range :
    led_indices power_on = [0, 0, 0, 0, 0]
    ∧ led_map.length = 16
    ∧ led_indices (run_output_writes
        [output_write.latch 0x08, output_write.data 0x00, output_write.latch 0x00] power_on)
      = [16, 0, 0, 0, 0]
    ∧ led_map[(run_output_writes
        [output_write.latch 0x08, output_write.data 0x00, output_write.latch 0x00]
          power_on).m_el_value]? = none := by
  refine ⟨by decide, by decide, by decide, by decide⟩

theorem audio_window_size_eq (r : Nat) (hr : r < 4) :
    audio_window_size r = 2 ^ (11 + r) ∧ audio_window_size r = 0x800 <<< r := by
  match r, hr with
  | 0, _ => exact ⟨rfl, rfl⟩
  | 1, _ => exact ⟨rfl, rfl⟩
  | 2, _ => exact ⟨rfl, rfl⟩
  | 3, _ => exact ⟨rfl, rfl⟩

/-- C29: audio bank entries stay inside the audiocpu region.  For every region
size `S` below `2 ^ 32` such that `S - 0x10000` is a power of two not smaller
than `0x4000`, every window `r` in `0..3` and every bank `b`, the configured
address `A = 0x10000 + ((b << (11 + r)) & ((S - 0x10000 - 1) & 0x3ffff))`
satisfies `0x10000 <= A` and `A + (0x800 << r) <= S`, so the whole banked window
lies within the region. -/
theorem bank_window_in_region (S n r b : Nat) (h32 : S < 2 ^ 32)
    (hS : S - 0x10000 = 2 ^ n) (hn : 0x4000 ≤ 2 ^ n) (hr : r < 4) :
    bank_address S r b
      = 0x10000 + ((b <<< (11 + r)) &&& ((S - 0x10000 - 1) &&& 0x3ffff))
    ∧ 0x10000 ≤ bank_address S r b
    ∧ bank_address S r b + (0x800 <<< r) ≤ S
    ∧ audio_window_size r = 0x800 <<< r := by
  have hpos : 0 < 2 ^ n := Nat.two_pow_pos n
  have hn14 : 14 ≤ n := by
    by_contra hc
    have h13 : n ≤ 13 := by omega
    have : 2 ^ n ≤ 2 ^ 13 := Nat.pow_le_pow_right (by norm_num) h13
    omega
  have hmask : address_mask S = (S - 0x10000 - 1) &&& 0x3ffff := by
    unfold address_mask
    have e : (S % 2 ^ 32 + 2 ^ 32 - 0x10000 - 1) % 2 ^ 32 = S - 0x10000 - 1 := by omega
    rw [e]
  have hm : (S - 0x10000 - 1) &&& 0x3ffff = 2 ^ (min n 18) - 1 := by
    rw [hS, two_pow_mask_and]
  have hk : 11 + r ≤ min n 18 := by
    rw [Nat.le_min]
    omega
  have hb := shifted_mask_bound b (11 + r) (min n 18) hk
  have hle : 2 ^ (min n 18) ≤ 2 ^ n := Nat.pow_le_pow_right (by norm_num) (Nat.min_le_left n 18)
  have h18 : 2 ^ (min n 18) ≤ 2 ^ 18 :=
    Nat.pow_le_pow_right (by norm_num) (Nat.min_le_right n 18)
  have hw := (audio_window_size_eq r hr).2
  have hw2 := (audio_window_size_eq r hr).1
  have hk2 : 0 < 2 ^ (11 + r) := Nat.two_pow_pos _
  have hba : bank_address S r b
      = 0x10000 + ((b <<< (11 + r)) &&& ((S - 0x10000 - 1) &&& 0x3ffff)) := by
    unfold bank_address
    rw [hmask, hm]
    apply Nat.mod_eq_of_lt
    omega
  refine ⟨hba, ?_, ?_, hw⟩
  · rw [hba]
    omega
  · rw [hba, hm, ← hw, hw2]
    omega

theorem bank_window_in_region_witness :
    ((0x30000 : Nat) < 2 ^ 32 ∧ 0x30000 - 0x10000 = 2 ^ 17 ∧ 0x4000 ≤ 2 ^ 17 ∧ 3 < 4)
    ∧ bank_address 0x30000 3 0xff + (0x800 <<< 3) ≤ 0x30000 :=
  ⟨⟨by norm_num, by norm_num, by norm_num, by norm_num⟩,
    (bank_window_in_region 0x30000 17 3 0xff (by norm_num) (by norm_num) (by norm_num)
      (by norm_num)).2.2.1⟩

end neogeo_state

/-! ## The Simpsons: sprite DMA -/

namespace simpsons_state

theorem copy_loop_step_active (src dst : Nat → Nat) (n a c ni : Nat)
    (h : sprite_active (src (8 * a)) = true) :
    objdma_copy_loop src (n + 1) ⟨dst, 8 * a, 8 * c, ni⟩
      = objdma_copy_loop src n
          ⟨memcpy_0x10 dst src (8 * c) (8 * a), 8 * (a + 1), 8 * (c + 1), ni - 1⟩ := by
  simp [objdma_copy_loop, h, Nat.mul_add]

theorem copy_loop_step_inactive (src dst : Nat → Nat) (n a c ni : Nat)
    (h : sprite_active (src (8 * a)) = false) :
    objdma_copy_loop src (n + 1) ⟨dst, 8 * a, 8 * c, ni⟩
      = objdma_copy_loop src n ⟨dst, 8 * (a + 1), 8 * c, ni⟩ := by
  simp [objdma_copy_loop, h, Nat.mul_add]

theorem active_entries_succ (src : Nat → Nat) (a n : Nat) :
    active_entries src a (n + 1)
      = if sprite_active (src (8 * a)) = true then a :: active_entries src (a + 1) n
        else active_entries src (a + 1) n := by
  simp [active_entries, List.range'_succ, List.filter_cons]

theorem active_entries_zero (src : Nat → Nat) (a : Nat) : active_entries src a 0 = [] := by
  simp [active_entries]

theorem copy_loop_spec (src : Nat → Nat) (n : Nat) :
    ∀ (a c ni : Nat) (dst : Nat → Nat),
      (objdma_copy_loop src n ⟨dst, 8 * a, 8 * c, ni⟩).srcp = 8 * (a + n)
      ∧ (objdma_copy_loop src n ⟨dst, 8 * a, 8 * c, ni⟩).dstp
          = 8 * (c + (active_entries src a n).length)
      ∧ (objdma_copy_loop src n ⟨dst, 8 * a, 8 * c, ni⟩).num_inactive
          = ni - (active_entries src a n).length
      ∧ (∀ p, p < 8 * c ∨ 8 * (c + (active_entries src a n).length) ≤ p →
          (objdma_copy_loop src n ⟨dst, 8 * a, 8 * c, ni⟩).dst p = dst p)
      ∧ (∀ j m, j < (active_entries src a n).length → m < 8 →
          (objdma_copy_loop src n ⟨dst, 8 * a, 8 * c, ni⟩).dst (8 * (c + j) + m)
            = src (8 * ((active_entries src a n).getD j 0) + m)) := by
  induction n with
  | zero =>
    intro a c ni dst
    simp [objdma_copy_loop, active_entries_zero]
  | succ n ih =>
    intro a c ni dst
    by_cases h : sprite_active (src (8 * a)) = true
    · obtain ⟨i1, i2, i3, i4, i5⟩ := ih (a + 1) (c + 1) (ni - 1)
        (memcpy_0x10 dst src (8 * c) (8 * a))
      rw [copy_loop_step_active src dst n a c ni h, active_entries_succ, if_pos h]
      simp only [List.length_cons]
      refine ⟨by rw [i1]; ring, by rw [i2]; ring, by rw [i3]; omega, ?_, ?_⟩
      · intro p hp
        rw [i4 p (by omega)]
        unfold memcpy_0x10
        rw [if_neg (by omega)]
      · intro j m hj hm
        match j with
        | 0 =>
          rw [i4 (8 * (c + 0) + m) (Or.inl (by omega))]
          unfold memcpy_0x10
          rw [if_pos (by omega)]
          simp only [List.getD_cons_zero]
          congr 1
          omega
        | j + 1 =>
          have hj2 : j < (active_entries src (a + 1) n).length := by omega
          have e : 8 * (c + (j + 1)) + m = 8 * (c + 1 + j) + m := by ring
          rw [e, i5 j m hj2 hm]
          simp only [List.getD_cons_succ]
    · have h2 : sprite_active (src (8 * a)) = false := by simpa using h
      obtain ⟨i1, i2, i3, i4, i5⟩ := ih (a + 1) c ni dst
      rw [copy_loop_step_inactive src dst n a c ni h2, active_entries_succ, if_neg h]
      refine ⟨by rw [i1]; ring, i2, i3, i4, i5⟩

theorem clear_loop_spec (n : Nat) :
    ∀ (c srcp ni : Nat) (dst : Nat → Nat),
      (objdma_clear_loop n ⟨dst, srcp, 8 * c, ni⟩).dstp = 8 * (c + n)
      ∧ (objdma_clear_loop n ⟨dst, srcp, 8 * c, ni⟩).srcp = srcp
      ∧ (∀ j, c ≤ j → j < c + n → (objdma_clear_loop n ⟨dst, srcp, 8 * c, ni⟩).dst (8 * j) = 0)
      ∧ (∀ p, (∀ j, c ≤ j → j < c + n → p ≠ 8 * j) →
          (objdma_clear_loop n ⟨dst, srcp, 8 * c, ni⟩).dst p = dst p) := by
  induction n with
  | zero =>
    intro c srcp ni dst
    refine ⟨rfl, rfl, ?_, fun p _ => rfl⟩
    intro j h1 h2
    omega
  | succ n ih =>
    intro c srcp ni dst
    have step : objdma_clear_loop (n + 1) ⟨dst, srcp, 8 * c, ni⟩
        = objdma_clear_loop n ⟨store_word dst (8 * c) 0, srcp, 8 * (c + 1), n⟩ := by
      simp [objdma_clear_loop, Nat.mul_add]
    obtain ⟨i1, i2, i3, i4⟩ := ih (c + 1) srcp n (store_word dst (8 * c) 0)
    rw [step]
    refine ⟨by rw [i1]; ring, i2, ?_, ?_⟩
    · intro j h1 h2
      by_cases hj : j = c
      · subst hj
        rw [i4 (8 * j) (fun j' h3 _ => by omega)]
        simp [store_word]
      · exact i3 j (by omega) (by omega)
    · intro p hp
      rw [i4 p (fun j h1 h2 => hp j (by omega) (by omega))]
      have hc : p ≠ 8 * c := hp c (le_refl c) (by omega)
      simp [store_word, hc]

theorem active_entries_length_le (src : Nat → Nat) (a n : Nat) :
    (active_entries src a n).length ≤ n := by
  unfold active_entries
  exact le_trans (List.length_filter_le _ _) (by simp)

theorem objdma_run_spec (src dst : Nat → Nat) :
    (objdma_run src dst).srcp = 8 * 256
    ∧ (objdma_run src dst).dstp = 8 * 256
    ∧ (∀ j m, j < (active_entries src 0 256).length → m < 8 →
        (objdma_run src dst).dst (8 * j + m)
          = src (8 * ((active_entries src 0 256).getD j 0) + m))
    ∧ (∀ j, (active_entries src 0 256).length ≤ j → j < 256 →
        (objdma_run src dst).dst (8 * j) = 0)
    ∧ (∀ j m, (active_entries src 0 256).length ≤ j → 0 < m → m < 8 →
        (objdma_run src dst).dst (8 * j + m) = dst (8 * j + m))
    ∧ (∀ p, 8 * 256 ≤ p → (objdma_run src dst).dst p = dst p) := by
  have hk := active_entries_length_le src 0 256
  obtain ⟨c1, c2, c3, c4, c5⟩ := copy_loop_spec src 256 0 0 256 dst
  have hrun : objdma_run src dst
      = objdma_clear_loop (256 - (active_entries src 0 256).length)
          ⟨(objdma_copy_loop src 256 ⟨dst, 8 * 0, 8 * 0, 256⟩).dst,
           (objdma_copy_loop src 256 ⟨dst, 8 * 0, 8 * 0, 256⟩).srcp,
           8 * (0 + (active_entries src 0 256).length),
           (objdma_copy_loop src 256 ⟨dst, 8 * 0, 8 * 0, 256⟩).num_inactive⟩ := by
    unfold objdma_run
    simp only
    rw [← c2, ← c3]
  obtain ⟨d1, d2, d3, d4⟩ := clear_loop_spec (256 - (active_entries src 0 256).length)
    (0 + (active_entries src 0 256).length)
    (objdma_copy_loop src 256 ⟨dst, 8 * 0, 8 * 0, 256⟩).srcp
    (objdma_copy_loop src 256 ⟨dst, 8 * 0, 8 * 0, 256⟩).num_inactive
    (objdma_copy_loop src 256 ⟨dst, 8 * 0, 8 * 0, 256⟩).dst
  rw [hrun]
  refine ⟨?_, ?_, ?_, ?_, ?_, ?_⟩
  · rw [d2, c1]
  · rw [d1]
    omega
  · intro j m hj hm
    rw [d4 (8 * j + m) (fun j' h1 h2 => by omega)]
    have h := c5 j m hj hm
    rw [Nat.zero_add] at h
    exact h
  · intro j h1 h2
    exact d3 j (by omega) (by omega)
  · intro j m h1 h2 h3
    rw [d4 (8 * j + m) (fun j' _ _ => by omega)]
    exact c4 (8 * j + m) (Or.inr (by omega))
  · intro p hp
    rw [d4 p (fun j' h1 h2 => by omega)]
    exact c4 p (Or.inr (by omega))

theorem sprite_active_iff (w : Nat) :
    sprite_active w = true ↔ (w &&& 0x8000 ≠ 0 ∧ w &&& 0xff ≠ 0) := by
  simp [sprite_active]

/-- C26: sprite DMA compaction.  Viewing source sprite RAM and the K053247
destination RAM as 256 entries of 8 words, `simpsons_objdma` copies into the
first `k` destination entries exactly the source entries whose first word has
bit 15 set and a non-zero low byte, unmodified and in source order, where `k`
is the number of such entries; source RAM is unchanged. -/
theorem objdma_compacts (s : simpsons_state) :
    (List.range (active_entries s.m_spriteram 0 256).length).map
        (sprite_entry (simpsons_objdma s).k053247_ram)
      = (active_entries s.m_spriteram 0 256).map (sprite_entry s.m_spriteram)
    ∧ active_entries s.m_spriteram 0 256
      = (List.range 256).filter (fun i =>
          decide (s.m_spriteram (8 * i) &&& 0x8000 ≠ 0 ∧ s.m_spriteram (8 * i) &&& 0xff ≠ 0))
    ∧ (simpsons_objdma s).m_spriteram = s.m_spriteram := by
  refine ⟨?_, ?_, rfl⟩
  · apply List.ext_getElem
    · simp
    · intro j h1 h2
      have hj : j < (active_entries s.m_spriteram 0 256).length := by simpa using h1
      simp only [List.getElem_map, List.getElem_range]
      unfold sprite_entry
      apply List.map_congr_left
      intro m hm
      have hm8 : m < 8 := List.mem_range.mp hm
      have h := (objdma_run_spec s.m_spriteram s.k053247_ram).2.2.1 j m hj hm8
      rw [List.getD_eq_getElem _ _ hj] at h
      exact h
  · unfold active_entries
    rw [List.range_eq_range']
    apply List.filter_congr
    intro i _
    rw [Bool.eq_iff_iff, sprite_active_iff]
    simp

theorem clear_loop_zero (v : objdma_vars) : objdma_clear_loop 0 v = v := rfl

theorem sprite_full_all_active :
    (active_entries sprite_full.m_spriteram 0 256).length = 256 := by
  have h : active_entries sprite_full.m_spriteram 0 256 = List.range' 0 256 := by
    unfold active_entries
    rw [List.filter_eq_self]
    intro a _
    show sprite_active 0x8001 = true
    decide
  rw [h, List.length_range']

/-- C30: sprite DMA tail and bounds.  `simpsons_objdma` always examines exactly
256 source entries and writes to exactly 256 destination entries, `k` copied and
`256 - k` cleared, never past entry 255; when all 256 entries are active the
clearing loop is not entered at all.  For each destination entry after the
copied prefix only the first word is set to 0 and the remaining seven words keep
their previous contents, so every such entry is inactive by the test used on the
source. -/
theorem objdma_tail (s : simpsons_state) :
    (objdma_run s.m_spriteram s.k053247_ram).srcp = 8 * 256
    ∧ (objdma_run s.m_spriteram s.k053247_ram).dstp = 8 * 256
    ∧ (active_entries s.m_spriteram 0 256).length ≤ 256
    ∧ (objdma_copy_loop s.m_spriteram 256 ⟨s.k053247_ram, 0, 0, 256⟩).srcp = 8 * 256
    ∧ (objdma_copy_loop s.m_spriteram 256 ⟨s.k053247_ram, 0, 0, 256⟩).dstp
        = 8 * (active_entries s.m_spriteram 0 256).length
    ∧ (objdma_copy_loop s.m_spriteram 256 ⟨s.k053247_ram, 0, 0, 256⟩).num_inactive
        = 256 - (active_entries s.m_spriteram 0 256).length
    ∧ ((active_entries s.m_spriteram 0 256).length = 256 →
        objdma_run s.m_spriteram s.k053247_ram
          = objdma_copy_loop s.m_spriteram 256 ⟨s.k053247_ram, 0, 0, 256⟩)
    ∧ (∀ p, 8 * 256 ≤ p → (simpsons_objdma s).k053247_ram p = s.k053247_ram p)
    ∧ (∀ j, (active_entries s.m_spriteram 0 256).length ≤ j → j < 256 →
        (simpsons_objdma s).k053247_ram (8 * j) = 0
        ∧ (∀ m, 0 < m → m < 8 →
            (simpsons_objdma s).k053247_ram (8 * j + m) = s.k053247_ram (8 * j + m))
        ∧ sprite_active ((simpsons_objdma s).k053247_ram (8 * j)) = false) := by
  obtain ⟨r1, r2, _, r4, r5, r6⟩ := objdma_run_spec s.m_spriteram s.k053247_ram
  obtain ⟨c1, c2, c3, _, _⟩ := copy_loop_spec s.m_spriteram 256 0 0 256 s.k053247_ram
  have c1' : (objdma_copy_loop s.m_spriteram 256 ⟨s.k053247_ram, 0, 0, 256⟩).srcp
      = 8 * 256 := c1
  have c2' : (objdma_copy_loop s.m_spriteram 256 ⟨s.k053247_ram, 0, 0, 256⟩).dstp
      = 8 * (active_entries s.m_spriteram 0 256).length := by
    have h := c2
    rw [Nat.zero_add] at h
    exact h
  have c3' : (objdma_copy_loop s.m_spriteram 256 ⟨s.k053247_ram, 0, 0, 256⟩).num_inactive
      = 256 - (active_entries s.m_spriteram 0 256).length := c3
  refine ⟨r1, r2, active_entries_length_le _ 0 256, c1', c2', c3', ?_, r6, ?_⟩
  · intro hfull
    have hz : (objdma_copy_loop s.m_spriteram 256 ⟨s.k053247_ram, 0, 0, 256⟩).num_inactive
        = 0 := by
      rw [c3', hfull]
    unfold objdma_run
    simp only
    rw [hz]
    exact clear_loop_zero _
  · intro j hk hj
    have hz : (simpsons_objdma s).k053247_ram (8 * j) = 0 := r4 j hk hj
    refine ⟨hz, fun m h1 h2 => r5 j m hk h1 h2, ?_⟩
    rw [hz]
    decide

theorem objdma_tail_witness :
    ((active_entries sprite_sample.m_spriteram 0 256).length ≤ 5 ∧ 5 < 256)
    ∧ (simpsons_objdma sprite_sample).k053247_ram (8 * 5) = 0
    ∧ (simpsons_objdma sprite_sample).k053247_ram (8 * 5 + 1) = 0xaaaa
    ∧ (active_entries sprite_full.m_spriteram 0 256).length = 256
    ∧ objdma_run sprite_full.m_spriteram sprite_full.k053247_ram
        = objdma_copy_loop sprite_full.m_spriteram 256 ⟨sprite_full.k053247_ram, 0, 0, 256⟩
    ∧ (simpsons_objdma sprite_full).k053247_ram (8 * 256) = 0xaaaa :=
  ⟨⟨by decide, by decide⟩,
    ((objdma_tail sprite_sample).2.2.2.2.2.2.2.2 5 (by decide) (by decide)).1,
    ((objdma_tail sprite_sample).2.2.2.2.2.2.2.2 5 (by decide) (by decide)).2.1 1
      (by decide) (by decide),
    sprite_full_all_active,
    (objdma_tail sprite_full).2.2.2.2.2.2.1 sprite_full_all_active,
    (objdma_tail sprite_full).2.2.2.2.2.2.2.1 (8 * 256) (le_refl _)⟩

end simpsons_state
